import Mathlib

/-!
Shallow embedding of the recommendation core and real-time analytics engine of
the Curated Events App repository, together with proofs checking the
natural-language specification against the code.

Conventions:
* Python floats are modelled as rationals (`ℚ`); all arithmetic in the embedded
  code paths is exact decimal arithmetic, which the source performs within
  floating-point but whose branch structure is faithfully preserved.
* UUIDs are modelled as `String` (the source converts them with `str(...)`
  before using them as dictionary keys).
* Python dictionaries that preserve insertion order are modelled as
  association lists; Python sets used only for membership tests are modelled
  as lists queried by membership.
* `async` functions have no concurrency-relevant behaviour in the embedded
  fragments; they are modelled as pure functions.
-/

namespace EventsApp

/-- Configuration constants from
`src/services/python/recommendation-engine/app/config.py` (`Settings`). -/
def MIN_INTERACTIONS_FOR_CF : Nat := 5

def DIVERSITY_FACTOR : ℚ := 1/10

def EXPLORATION_FACTOR : ℚ := 1/20

def COLLABORATIVE_WEIGHT : ℚ := 2/5

def CONTENT_WEIGHT : ℚ := 7/20

def POPULARITY_WEIGHT : ℚ := 3/20

def DIVERSITY_WEIGHT : ℚ := 1/10

def CATEGORY_WEIGHT : ℚ := 3/10

def TAG_WEIGHT : ℚ := 1/4

def DESCRIPTION_WEIGHT : ℚ := 1/4

def LOCATION_WEIGHT : ℚ := 1/5

def ENABLE_LOCATION_BASED : Bool := true

def ENABLE_TRENDING_BOOST : Bool := true

/-- A user interaction record
(`app/models/recommendation.py`, class `UserInteraction`).
`rating` is validated to 1..5 by pydantic when present; `durationSeconds`
is a nonnegative integer when present. -/
structure UserInteraction where
  userId : String
  eventId : String
  interactionType : String
  rating : Option ℚ
  durationSeconds : Option Nat
deriving DecidableEq

/-- `CollaborativeFilteringRecommender._interaction_to_rating`
(`app/algorithms/collaborative_filtering.py`, lines 127-152).
The Python `type_ratings` dictionary lookup with default 2.0 is written as a
chain of equality tests; `if interaction.duration_seconds` is Python
truthiness, i.e. the duration is present and nonzero. -/
def interactionToRating (i : UserInteraction) : ℚ :=
  match i.rating with
  | some r => r
  | none =>
    let base : ℚ :=
      if i.interactionType = "register" then 5
      else if i.interactionType = "like" then 4
      else if i.interactionType = "save" then 4
      else if i.interactionType = "share" then 4
      else if i.interactionType = "click" then 3
      else if i.interactionType = "view" then 2
      else if i.interactionType = "comment" then 7/2
      else 2
    let adjusted : ℚ :=
      match i.durationSeconds with
      | some d =>
          if i.interactionType = "view" ∧ d ≠ 0 then
            (if 300 < d then base + 1 else if 60 < d then base + 1/2 else base)
          else base
      | none => base
    min 5 adjusted

/-- The derived-rating table exactly as the claim states it: a view gains
+1.0 when its duration is at least (`≥`) 300 seconds, else +0.5 when at
least 60 seconds.  Transcribed from the claim wording, for comparison with
`interactionToRating`. -/
def ratingSpecClaimed (i : UserInteraction) : ℚ :=
  match i.rating with
  | some r => r
  | none =>
    let base : ℚ :=
      if i.interactionType = "register" then 5
      else if i.interactionType = "like" ∨ i.interactionType = "save" ∨
              i.interactionType = "share" then 4
      else if i.interactionType = "comment" then 7/2
      else if i.interactionType = "click" then 3
      else if i.interactionType = "view" then 2
      else 2
    let bonus : ℚ :=
      if i.interactionType = "view" then
        match i.durationSeconds with
        | some d => if 300 ≤ d then 1 else if 60 ≤ d then 1/2 else 0
        | none => 0
      else 0
    min 5 (base + bonus)

/-- The derived-rating table as amended: the duration bonuses require the
duration to be strictly greater than 300 (resp. 60) seconds.  Transcribed
from the amended claim wording, for comparison with `interactionToRating`. -/
def ratingSpecAmended (i : UserInteraction) : ℚ :=
  match i.rating with
  | some r => r
  | none =>
    let base : ℚ :=
      if i.interactionType = "register" then 5
      else if i.interactionType = "like" ∨ i.interactionType = "save" ∨
              i.interactionType = "share" then 4
      else if i.interactionType = "comment" then 7/2
      else if i.interactionType = "click" then 3
      else if i.interactionType = "view" then 2
      else 2
    let bonus : ℚ :=
      if i.interactionType = "view" then
        match i.durationSeconds with
        | some d => if 300 < d then 1 else if 60 < d then 1/2 else 0
        | none => 0
      else 0
    min 5 (base + bonus)

/-- A view interaction of exactly 300 seconds without an explicit rating. -/
def viewAt300 : UserInteraction :=
  { userId := "u0", eventId := "e0", interactionType := "view",
    rating := none, durationSeconds := some 300 }

/-- Helper for `uniqueFirst`: keep elements not yet seen. -/
def uniqueFirstAux : List String → List String → List String
  | [], _ => []
  | x :: xs, seen =>
    if x ∈ seen then uniqueFirstAux xs seen
    else x :: uniqueFirstAux xs (x :: seen)

/-- Distinct values in order of first appearance, matching
`pandas.Series.unique` as used for `unique_users` / `unique_events` in
`CollaborativeFilteringRecommender.train` (lines 59-60), and Python
dictionary key order for `category_groups`. -/
def uniqueFirst (l : List String) : List String := uniqueFirstAux l []

/-- The result of the encoder/sparse-matrix construction phase of CF training
(`CollaborativeFilteringRecommender.train`, lines 47-79): the user and event
index lists and the COO entries `(user_idx, event_idx, rating)` handed to
`scipy.sparse.csr_matrix`. -/
structure CFTrainResult where
  users : List String
  events : List String
  entries : List (Nat × Nat × ℚ)
deriving DecidableEq

/-- The encoder and sparse-matrix construction of
`CollaborativeFilteringRecommender.train` (lines 39-79): refuse when fewer
than `MIN_INTERACTIONS_FOR_CF` interactions, otherwise assign dense indices
by first occurrence and emit one COO triple per interaction row. -/
def cfTrainMatrix (interactions : List UserInteraction) :
    Option CFTrainResult :=
  if interactions.length < MIN_INTERACTIONS_FOR_CF then none
  else
    let users := uniqueFirst (interactions.map (·.userId))
    let events := uniqueFirst (interactions.map (·.eventId))
    some { users := users, events := events,
           entries := interactions.map (fun i =>
             (users.indexOf i.userId, events.indexOf i.eventId,
              interactionToRating i)) }

/-- The value of cell `(u, e)` of a matrix built by
`scipy.sparse.csr_matrix((data, (row, col)))`: entries at duplicate
coordinates are summed together. -/
def csrEntry (entries : List (Nat × Nat × ℚ)) (u e : Nat) : ℚ :=
  ((entries.filter (fun t => t.1 = u ∧ t.2.1 = e)).map (fun t => t.2.2)).sum

/-- Five identical `like` interactions of the same user on the same event. -/
def fiveLikes : List UserInteraction :=
  List.replicate 5
    { userId := "u0", eventId := "e0", interactionType := "like",
      rating := none, durationSeconds := none }

/-- Filesystem effects, for the model-persistence traces. -/
inductive FsOp where
  | makeDirs (path : String) : FsOp
  | openWrite (path : String) : FsOp
  | renameFile (src dst : String) : FsOp
deriving DecidableEq

/-- Payload shapes for the entries of the pickled model dictionary. -/
inductive PickleVal where
  | strV (s : String) : PickleVal
  | intV (n : Int) : PickleVal
  | blobV (name : String) : PickleVal
deriving DecidableEq

def MODEL_CACHE_DIR : String := "./models"

/-- The dictionary pickled by `CollaborativeFilteringRecommender._save_model`
(lines 353-379); numeric arrays and encoder maps are abstracted as opaque
blobs, the version is the string `"1.0.0"` set in `__init__`. -/
def cfModelData : List (String × PickleVal) :=
  [("user_encoder", .blobV "user_encoder"),
   ("event_encoder", .blobV "event_encoder"),
   ("user_decoder", .blobV "user_decoder"),
   ("event_decoder", .blobV "event_decoder"),
   ("user_factors", .blobV "user_factors"),
   ("item_factors", .blobV "item_factors"),
   ("user_bias", .blobV "user_bias"),
   ("item_bias", .blobV "item_bias"),
   ("global_bias", .blobV "global_bias"),
   ("model_version", .strV "1.0.0")]

/-- The dictionary pickled by `ContentBasedRecommender._save_model`
(lines 665-686). -/
def cbModelData : List (String × PickleVal) :=
  [("event_features", .blobV "event_features"),
   ("event_embeddings", .blobV "event_embeddings"),
   ("category_encoder", .blobV "category_encoder"),
   ("tag_vocabulary", .blobV "tag_vocabulary"),
   ("model_version", .strV "1.0.0")]

def cfModelPath : String := MODEL_CACHE_DIR ++ "/collaborative_filtering_model.pkl"

def cbModelPath : String := MODEL_CACHE_DIR ++ "/content_based_model.pkl"

/-- The filesystem trace of `CollaborativeFilteringRecommender._save_model`:
`os.makedirs(model_dir, exist_ok=True)` followed by
`open(model_path, 'wb')` + `pickle.dump` directly at the final path. -/
def cfSaveOps : List FsOp :=
  [.makeDirs MODEL_CACHE_DIR, .openWrite cfModelPath]

/-- The filesystem trace of `ContentBasedRecommender._save_model`. -/
def cbSaveOps : List FsOp :=
  [.makeDirs MODEL_CACHE_DIR, .openWrite cbModelPath]

/-- Atomic persistence in the claim's sense: the final artifact path is
produced by renaming a temporary file into place, and the final path is never
opened for direct writing (so readers can never observe a partial file). -/
def atomicSaveTrace (ops : List FsOp) (finalPath : String) : Prop :=
  (∃ tmp, FsOp.renameFile tmp finalPath ∈ ops) ∧
    FsOp.openWrite finalPath ∉ ops

/-- The persisted dictionary carries a single-integer schema version under
`model_version`. -/
def intSchemaVersion (data : List (String × PickleVal)) : Prop :=
  ∃ n : Int, data.lookup "model_version" = some (.intV n)

/-- The user profile assembled by `ContentBasedRecommender._build_user_profile`
(`content_based.py`, lines 272-328).  Python sets are modelled as lists used
only through membership and emptiness; `price_preferences['max']` defaults to
`float('inf')`, modelled as `none`. -/
structure UserProfile where
  preferredCategories : List String
  preferredTags : List String
  preferredLocations : List String
  priceMin : ℚ
  priceMax : Option ℚ
  virtualPreference : ℚ
  textPreferences : List String
  organizerPreferences : List String
  venuePreferences : List String
deriving DecidableEq

/-- `ContentBasedRecommender._calculate_confidence` (lines 556-571): start at
0.5, add 0.1 for non-empty preferred categories, 0.1 for non-empty preferred
tags, 0.2 for non-empty text preferences, 0.1 for non-empty preferred
locations, and cap the sum at 0.95.  (The `event_features` parameter of the
source function is unused.) -/
def calculateConfidence (p : UserProfile) : ℚ :=
  let c1 : ℚ := 1/2
  let c2 := if p.preferredCategories ≠ [] then c1 + 1/10 else c1
  let c3 := if p.preferredTags ≠ [] then c2 + 1/10 else c2
  let c4 := if p.textPreferences ≠ [] then c3 + 1/5 else c3
  let c5 := if p.preferredLocations ≠ [] then c4 + 1/10 else c4
  min (19/20) c5

/-- The confidence formula exactly as the claim states it: 0.5 plus 0.1 for
EACH non-empty axis among categories, tags, text blobs and locations, capped
at 0.95.  Transcribed from the claim wording, for comparison with
`calculateConfidence`. -/
def confidenceSpecClaimed (p : UserProfile) : ℚ :=
  min (19/20) (1/2 +
    (if p.preferredCategories ≠ [] then (1:ℚ)/10 else 0) +
    (if p.preferredTags ≠ [] then (1:ℚ)/10 else 0) +
    (if p.textPreferences ≠ [] then (1:ℚ)/10 else 0) +
    (if p.preferredLocations ≠ [] then (1:ℚ)/10 else 0))

/-- The confidence formula as amended: text blobs contribute 0.2, the other
three axes 0.1 each, capped at 0.95.  Transcribed from the amended claim
wording, for comparison with `calculateConfidence`. -/
def confidenceSpecAmended (p : UserProfile) : ℚ :=
  min (19/20) (1/2 +
    (if p.preferredCategories ≠ [] then (1:ℚ)/10 else 0) +
    (if p.preferredTags ≠ [] then (1:ℚ)/10 else 0) +
    (if p.textPreferences ≠ [] then (1:ℚ)/5 else 0) +
    (if p.preferredLocations ≠ [] then (1:ℚ)/10 else 0))

/-- A profile whose only filled axis is the text-preference list. -/
def textOnlyProfile : UserProfile :=
  { preferredCategories := [], preferredTags := [], preferredLocations := [],
    priceMin := 0, priceMax := none, virtualPreference := 1/2,
    textPreferences := ["tech conference talk"], organizerPreferences := [],
    venuePreferences := [] }

/-- Sliding-window anomaly state created by
`RealTimeAnalyticsEngine._initialize_anomaly_detectors`
(`real_time_analytics.py`, lines 108-116): `threshold_multiplier` is 2.0. -/
def initThresholdMultiplier : ℚ := 2

/-- `np.mean` of a list of window values. -/
def anomalyMean (baseline : List ℚ) : ℚ := baseline.sum / baseline.length

/-- One metric's decision in `RealTimeAnalyticsEngine._detect_anomalies_loop`
(lines 557-589): an `anomaly_detected` alert fires for the metric iff the
window has recorded data (`window['count'] > 0`), strictly more than 10
baseline samples exist, and the last window value exceeds
`mean(baseline) * threshold_multiplier`. -/
def detectAnomaly (windowCount : Nat) (lastValue : ℚ) (baseline : List ℚ)
    (thresholdMultiplier : ℚ) : Bool :=
  if 0 < windowCount then
    if 10 < baseline.length then
      decide (anomalyMean baseline * thresholdMultiplier < lastValue)
    else false
  else false

/-- A recommendation item (`app/models/recommendation.py`,
`RecommendationItem`, lines 122-141).  Only the fields read by the embedded
code paths are kept; pydantic validates `0 ≤ score ≤ 1`, `0 ≤ confidence ≤ 1`
and `rank ≥ 1` at construction, and the embedded pipeline computes values
satisfying those bounds directly.  The remaining cached event fields
(start_time, price, venue, image URL, ...) do not influence any embedded
computation. -/
structure RecItem where
  eventId : String
  score : ℚ
  algorithm : String
  confidence : ℚ
  rank : Nat
  reasons : List String
  title : String
  category : String
  tags : List String
deriving DecidableEq, Inhabited

/-- A recommendation request (`RecommendationRequest`, lines 81-104): the
fields the embedded pipeline reads.  pydantic validates `1 ≤ count ≤ 100`
and `0 ≤ diversity_factor ≤ 1`. -/
structure RecRequest where
  userId : String
  count : Nat
  excludeEvents : List String
  diversityFactor : Option ℚ
  location : Option (ℚ × ℚ)
deriving DecidableEq

/-- Ordering underlying Python's `sort(key=..., reverse=True)`: `a` may
precede `b` iff `key b ≤ key a`. -/
def scoreGE {α : Type} (key : α → ℚ) (a b : α) : Prop := key b ≤ key a

instance scoreGEDec {α : Type} (key : α → ℚ) : DecidableRel (scoreGE key) :=
  fun a b => inferInstanceAs (Decidable (key b ≤ key a))

instance scoreGETotal {α : Type} (key : α → ℚ) : IsTotal α (scoreGE key) :=
  ⟨fun a b => le_total (key b) (key a)⟩

instance scoreGETrans {α : Type} (key : α → ℚ) : IsTrans α (scoreGE key) :=
  ⟨fun _ _ _ h1 h2 => le_trans h2 h1⟩

/-- Stable descending sort by a rational key, the semantics of Python's
stable `sorted(..., key=..., reverse=True)` (and, for the numpy
`argsort()[::-1]` rankings, a definite representative of the unspecified
tie order). -/
def sortDescBy {α : Type} (key : α → ℚ) (l : List α) : List α :=
  List.insertionSort (scoreGE key) l

/-- The `rank = 1; ...; rank += 1` enumeration pattern shared by the
recommendation loops: apply `g` to a running counter and each element. -/
def rankedMap {α β : Type} (g : Nat → α → β) : Nat → List α → List β
  | _, [] => []
  | n, x :: xs => g n x :: rankedMap g (n + 1) xs

/-- State of `CollaborativeFilteringRecommender` at inference time
(`collaborative_filtering.py`).  `users`/`events` are the unique id lists
underlying `user_encoder`/`event_encoder` (an id's index) and
`user_decoder`/`event_decoder` (the id at an index); `interactionMatrix` is
the COO entry list of `self.interaction_matrix`, `none` when the attribute
is `None` (as after `load_model`, which restores factors but not the
matrix). -/
structure CFState where
  isTrained : Bool
  users : List String
  events : List String
  userFactors : List (List ℚ)
  itemFactors : List (List ℚ)
  userBias : List ℚ
  itemBias : List ℚ
  globalBias : ℚ
  interactionMatrix : Option (List (Nat × Nat × ℚ))

def dotQ (a b : List ℚ) : ℚ := (List.zipWith (· * ·) a b).sum

/-- `predicted_ratings[j]` for user index `i`
(`get_recommendations`, lines 171-176):
`np.dot(user_vector, item_factors.T)[j] + global_bias + user_bias[i] +
item_bias[j]`. -/
def cfPredicted (s : CFState) (i j : Nat) : ℚ :=
  dotQ (s.userFactors.getD i []) (s.itemFactors.getD j []) + s.globalBias +
    s.userBias.getD i 0 + s.itemBias.getD j 0

/-- `set(self.interaction_matrix[user_idx].nonzero()[1])`: the distinct event
indices carrying an entry for user `i` (all stored ratings are positive in a
trained state, so stored coordinates and nonzero coordinates coincide). -/
def cfInteractedIdx (entries : List (Nat × Nat × ℚ)) (i : Nat) : List Nat :=
  ((entries.filter (fun t => t.1 = i)).map (fun t => t.2.1)).dedup

/-- The event indices excluded at lines 182-189: everything the user has
interacted with plus the requested `exclude_events` that the encoder knows. -/
def cfExcludeIdxs (s : CFState) (interacted : List Nat) (excl : List String) :
    List Nat :=
  interacted ++
    (excl.filter (fun e => e ∈ s.events)).map (fun e => s.events.indexOf e)

/-- `confidence = min(0.9, 0.5 + len(user_interactions) / 100)` (line 207). -/
def cfConfidence (interacted : List Nat) : ℚ :=
  min (9/10) (1/2 + (interacted.length : ℚ) / 100)

/-- `event_scores` sorted descending (lines 193-194); the score list has one
entry per event column of the model. -/
def cfEventOrder (s : CFState) (i : Nat) : List Nat :=
  sortDescBy (fun j => cfPredicted s i j) (List.range s.events.length)

/-- `event_popularity[j] = interaction_matrix.sum(axis=0)[j]` (line 272). -/
def cfPopularity (entries : List (Nat × Nat × ℚ)) (j : Nat) : ℚ :=
  ((entries.filter (fun t => t.2.1 = j)).map (fun t => t.2.2)).sum

/-- `numpy.max` of a vector given as a list (never queried on `[]` by the
embedded paths, mirroring the source where `.max()` runs inside a loop over
a non-empty index list). -/
def listMaxQ : List ℚ → ℚ
  | [] => 0
  | x :: xs => xs.foldl max x

/-- `max_popularity = event_popularity.max() if event_popularity.max() > 0
else 1` (line 298). -/
def cfPopDenom (s : CFState) (entries : List (Nat × Nat × ℚ)) : ℚ :=
  let m := listMaxQ ((List.range s.events.length).map (cfPopularity entries))
  if 0 < m then m else 1

/-- `CollaborativeFilteringRecommender._get_popularity_based_recommendations`
(lines 264-322): rank events by column-sum of the interaction matrix,
normalise by the maximum, confidence 0.6, reason "Popular event among all
users"; `[]` when `interaction_matrix is None`. -/
def cfPopularityFallback (s : CFState) (count : Nat) (excl : List String) :
    List RecItem :=
  match s.interactionMatrix with
  | none => []
  | some entries =>
    let order := sortDescBy (cfPopularity entries) (List.range s.events.length)
    let exclIdx :=
      (excl.filter (fun e => e ∈ s.events)).map (fun e => s.events.indexOf e)
    let denom := cfPopDenom s entries
    let chosen := (order.filter (fun j => j ∉ exclIdx)).take count
    rankedMap (fun rank j =>
      { eventId := s.events.getD j "",
        score := cfPopularity entries j / denom,
        algorithm := "popularity_based",
        confidence := 3/5,
        rank := rank,
        reasons := ["Popular event among all users"],
        title := "", category := "", tags := [] }) 1 chosen

/-- `CollaborativeFilteringRecommender.get_recommendations` (lines 154-231):
`[]` when untrained; the popularity fallback when the user is unknown to the
encoder; otherwise the top-`count` non-excluded events by predicted rating.
A `None` interaction matrix raises on `.nonzero()`, the exception is caught
and `[]` returned. -/
def cfGetRecommendations (s : CFState) (userId : String) (count : Nat)
    (excl : List String) : List RecItem :=
  if s.isTrained = false then []
  else if userId ∉ s.users then cfPopularityFallback s count excl
  else
    match s.interactionMatrix with
    | none => []
    | some entries =>
      let i := s.users.indexOf userId
      let interacted := cfInteractedIdx entries i
      let excluded := cfExcludeIdxs s interacted excl
      let conf := cfConfidence interacted
      let chosen := ((cfEventOrder s i).filter (fun j => j ∉ excluded)).take count
      rankedMap (fun rank j =>
        { eventId := s.events.getD j "",
          score := min 1 (max 0 (cfPredicted s i j / 5)),
          algorithm := "collaborative_filtering",
          confidence := conf,
          rank := rank,
          reasons := ["Users with similar preferences also liked this event"],
          title := "", category := "", tags := [] }) 1 chosen

/-- An untrained CF state that nevertheless holds interaction data. -/
def untrainedCF : CFState :=
  { isTrained := false, users := [], events := ["e1"], userFactors := [],
    itemFactors := [], userBias := [], itemBias := [], globalBias := 0,
    interactionMatrix := some [(0, 0, 4)] }

/-- A small trained CF state. -/
def trainedCF : CFState :=
  { isTrained := true, users := ["u1"], events := ["e1", "e2"],
    userFactors := [[1]], itemFactors := [[1], [1]], userBias := [0],
    itemBias := [0, 0], globalBias := 0,
    interactionMatrix := some [(0, 0, 4), (0, 1, 2)] }

/-- Per-event feature record stored in `ContentBasedRecommender.event_features`
(`content_based.py`, `_process_event_features`, lines 95-130).  `startTime`
is a timestamp in seconds (`none` when absent; the source's ISO-string
parsing path is not re-modelled); `price` is the value already coerced
through `or 0.0`. -/
structure EventFeat where
  title : String
  shortDescription : String
  category : String
  tags : List String
  organizerName : String
  venueName : String
  isVirtual : Bool
  price : ℚ
  textContent : String
  startTime : Option ℚ
  curationScore : ℚ
deriving DecidableEq, Inhabited

/-- Explicit user preferences passed to the recommenders (the
`user_preferences` dictionary / `UserPreferences` model).  An empty
dictionary, which fails Python's `if preferences:` test, is `none` at the
call sites. -/
structure UserPreferences where
  preferredCategories : List String
  preferredLocations : List String
  interests : List String
  priceRangeMin : Option ℚ
  priceRangeMax : Option ℚ
deriving DecidableEq

/-- State of `ContentBasedRecommender` at inference time.  The
sentence-transformer encoder and the cosine similarity over its embeddings
are an external ML dependency (not part of this repository); they are
abstracted as the oracle `textSimilarity blob eventId`, standing for
`cosine_similarity(encode(blob), event_embeddings[eventId])`, and
`hasEmbedding` tells which event ids have stored embeddings.  `now` is the
current timestamp in seconds. -/
structure CBState where
  isTrained : Bool
  eventFeatures : List (String × EventFeat)
  hasEmbedding : String → Bool
  textSimilarity : String → String → ℚ
  now : ℚ

/-- `ContentBasedRecommender._get_interaction_weight` (lines 330-342). -/
def interactionWeight (t : String) : ℚ :=
  if t = "register" then 1
  else if t = "like" then 4/5
  else if t = "save" then 4/5
  else if t = "share" then 7/10
  else if t = "click" then 1/2
  else if t = "view" then 3/10
  else if t = "comment" then 3/5
  else if t = "rate" then 9/10
  else 3/10

/-- The initial profile of `_build_user_profile` (lines 275-284). -/
def emptyProfile : UserProfile :=
  { preferredCategories := [], preferredTags := [], preferredLocations := [],
    priceMin := 0, priceMax := none, virtualPreference := 1/2,
    textPreferences := [], organizerPreferences := [], venuePreferences := [] }

/-- `set.update`: add each element not already present.  (Python set
iteration order is arbitrary; the sets are consumed only through membership,
emptiness and cardinality.) -/
def insertAll (base : List String) (xs : List String) : List String :=
  xs.foldl (fun acc x => acc.insert x) base

/-- One interaction's contribution to the user profile (lines 298-326). -/
def profileStep (s : CBState) (p : UserProfile) (i : UserInteraction) :
    UserProfile :=
  match s.eventFeatures.lookup i.eventId with
  | none => p
  | some f =>
    let w := interactionWeight i.interactionType
    let p := if f.category ≠ "" then
        { p with preferredCategories :=
            p.preferredCategories.insert f.category }
      else p
    let p := if f.tags ≠ [] then
        { p with preferredTags := insertAll p.preferredTags f.tags }
      else p
    let p := if f.organizerName ≠ "" then
        { p with organizerPreferences :=
            p.organizerPreferences.insert f.organizerName }
      else p
    let p := if f.venueName ≠ "" then
        { p with venuePreferences := p.venuePreferences.insert f.venueName }
      else p
    let p := if f.isVirtual then
        { p with virtualPreference := min 1 (p.virtualPreference + w/10) }
      else
        { p with virtualPreference := max 0 (p.virtualPreference - w/10) }
    { p with textPreferences := p.textPreferences ++ [f.textContent] }

/-- `_build_user_profile` (lines 272-328). -/
def buildUserProfile (s : CBState) (prefs : Option UserPreferences)
    (interactions : List UserInteraction) : UserProfile :=
  let base := emptyProfile
  let base :=
    match prefs with
    | none => base
    | some pr =>
      { base with
        preferredCategories :=
          insertAll base.preferredCategories pr.preferredCategories,
        preferredTags := insertAll base.preferredTags pr.interests,
        preferredLocations :=
          insertAll base.preferredLocations pr.preferredLocations,
        priceMin := pr.priceRangeMin.getD base.priceMin,
        priceMax := pr.priceRangeMax }
  interactions.foldl (profileStep s) base

/-- Occurrence of `pat` inside `hay` over character lists. -/
def subListAt : List Char → List Char → Bool
  | pat, [] => pat.isEmpty
  | pat, c :: rest => pat.isPrefixOf (c :: rest) || subListAt pat rest

/-- Python's substring test `pat in hay`. -/
def strContains (hay pat : String) : Bool := subListAt pat.toList hay.toList

/-- `_calculate_category_similarity` (lines 392-402). -/
def categoryScore (p : UserProfile) (f : EventFeat) : ℚ :=
  if p.preferredCategories = [] then 1/2
  else if f.category ∈ p.preferredCategories then 1
  else 1/10

/-- `_calculate_tag_similarity` (lines 404-417): Jaccard similarity of the
preferred-tag set and the event-tag set. -/
def tagScore (p : UserProfile) (f : EventFeat) : ℚ :=
  if p.preferredTags = [] ∨ f.tags = [] then 1/2
  else
    let et := f.tags.dedup
    let inter := p.preferredTags.filter (fun t => t ∈ et)
    let uni := p.preferredTags ++ et.filter (fun t => t ∉ p.preferredTags)
    if uni = [] then 1/2 else (inter.length : ℚ) / uni.length

/-- The reverse feature-record lookup of `_calculate_text_similarity`
(lines 425-429): the first event id whose stored features equal the given
record. -/
def featLookupId (s : CBState) (f : EventFeat) : Option String :=
  (s.eventFeatures.find? (fun q => q.2 = f)).map (fun q => q.1)

/-- `_calculate_text_similarity` (lines 419-449): maximum oracle similarity
between the stored event embedding and the profile's preferred text blobs,
0.5 when data is missing.  The running maximum starts at 0.0. -/
def textScore (s : CBState) (p : UserProfile) (f : EventFeat) : ℚ :=
  if p.textPreferences = [] then 1/2
  else
    match featLookupId s f with
    | none => 1/2
    | some eid =>
      if s.hasEmbedding eid then
        (p.textPreferences.map (fun blob => s.textSimilarity blob eid)).foldl
          max 0
      else 1/2

/-- `_calculate_location_preference` (lines 451-467). -/
def locationScore (p : UserProfile) (f : EventFeat) : ℚ :=
  if p.preferredLocations = [] then 1
  else if f.isVirtual then
    (if "online" ∈ p.preferredLocations then 1 else 4/5)
  else if f.venueName ≠ "" ∧
      p.preferredLocations.any
        (fun loc => strContains f.venueName.toLower loc.toLower) then 1
  else 1/2

/-- `_calculate_price_preference` (lines 469-483); `priceMax = none` models
the default `float('inf')` bound. -/
def priceScore (p : UserProfile) (f : EventFeat) : ℚ :=
  match p.priceMax with
  | none => if p.priceMin ≤ f.price then 1 else 4/5
  | some m =>
    if p.priceMin ≤ f.price ∧ f.price ≤ m then 1
    else if f.price < p.priceMin then 4/5
    else if 0 < m then max (1/10) (m / f.price) else 1/10

/-- `_calculate_virtual_preference` (lines 485-494). -/
def virtualScore (p : UserProfile) (f : EventFeat) : ℚ :=
  if f.isVirtual then 1/2 + p.virtualPreference / 2
  else 1/2 + (1 - p.virtualPreference) / 2

def daySeconds : ℚ := 86400

/-- `_calculate_time_relevance` (lines 496-521). -/
def timeScore (s : CBState) (f : EventFeat) : ℚ :=
  match f.startTime with
  | none => 4/5
  | some st =>
    let diff := st - s.now
    if 0 ≤ diff ∧ diff ≤ 30 * daySeconds then 1
    else if 30 * daySeconds < diff ∧ diff ≤ 90 * daySeconds then 9/10
    else if 90 * daySeconds < diff then 7/10
    else 1/10

/-- The per-event score of `_calculate_event_scores` (lines 354-388). -/
def eventScore (s : CBState) (p : UserProfile) (f : EventFeat) : ℚ :=
  (categoryScore p f * CATEGORY_WEIGHT + tagScore p f * TAG_WEIGHT +
      textScore s p f * DESCRIPTION_WEIGHT +
      locationScore p f * LOCATION_WEIGHT) *
    priceScore p f * virtualScore p f * timeScore s f *
    (1/2 + f.curationScore / 2)

/-- `_calculate_event_scores` (lines 344-390): score every stored event not
in `exclude_events`. -/
def calculateEventScores (s : CBState) (p : UserProfile) (excl : List String) :
    List (String × ℚ) :=
  (s.eventFeatures.filter (fun q => q.1 ∉ excl)).map
    (fun q => (q.1, eventScore s p q.2))

def joinComma : List String → String
  | [] => ""
  | [x] => x
  | x :: xs => x ++ ", " ++ joinComma xs

/-- `_generate_explanation` (lines 523-554).  Reason texts are paraphrased
without apostrophes; their exact wording is not load-bearing. -/
def generateExplanation (p : UserProfile) (f : EventFeat) : List String :=
  let r : List String := []
  let r := if f.category ∈ p.preferredCategories then
      r ++ ["Matches your interest in " ++ f.category]
    else r
  let matching := f.tags.dedup.filter (fun t => t ∈ p.preferredTags)
  let r := if matching ≠ [] then
      (if matching.length = 1 then r ++ ["Related to " ++ matching.headD ""]
       else r ++ ["Related to " ++ joinComma (matching.take 2)])
    else r
  let r := if f.organizerName ∈ p.organizerPreferences then
      r ++ ["From " ++ f.organizerName ++
        ", an organizer you have engaged with before"]
    else r
  let r := if f.isVirtual ∧ 7/10 < p.virtualPreference then
      r ++ ["Virtual event matching your preference"]
    else if ¬ f.isVirtual ∧ p.virtualPreference < 3/10 then
      r ++ ["In-person event matching your preference"]
    else r
  let r := if 4/5 < f.curationScore then
      r ++ ["High-quality event based on our content analysis"]
    else r
  r.take 3

/-- `ContentBasedRecommender.get_recommendations` (lines 215-270): `[]` when
untrained; otherwise score events, sort descending, take the top `count`,
and emit items with clipped scores and profile-based confidence. -/
def cbGetRecommendations (s : CBState) (_userId : String)
    (prefs : Option UserPreferences) (interactions : List UserInteraction)
    (count : Nat) (excl : List String) : List RecItem :=
  if s.isTrained = false then []
  else
    let p := buildUserProfile s prefs interactions
    let scores := calculateEventScores s p excl
    let top := (sortDescBy (fun q => q.2) scores).take count
    rankedMap (fun rank q =>
      let f := (s.eventFeatures.lookup q.1).getD default
      { eventId := q.1,
        score := min 1 (max 0 q.2),
        algorithm := "content_based",
        confidence := calculateConfidence p,
        rank := rank,
        reasons := generateExplanation p f,
        title := f.title, category := f.category, tags := f.tags }) 1 top

/-- The per-algorithm candidate map built by
`HybridRecommender._get_multi_algorithm_recommendations`
(`hybrid_recommender.py`, lines 127-214).  The `location` and `trending`
keys are present only under their conditions, modelled with `Option`. -/
structure AlgoRecs where
  collaborative : List RecItem
  content : List RecItem
  popularity : List RecItem
  location : Option (List RecItem)
  trending : Option (List RecItem)

/-- `HybridRecommender._get_popularity_recommendations` (lines 489-494):
returns the empty list unconditionally ("would be implemented with actual
data access"). -/
def getPopularityRecommendations (_req : RecRequest) (_count : Nat) :
    List RecItem := []

/-- `HybridRecommender._get_location_based_recommendations`
(lines 496-501): returns the empty list unconditionally. -/
def getLocationBasedRecommendations (_req : RecRequest) (_count : Nat) :
    List RecItem := []

/-- `HybridRecommender._get_trending_recommendations` (lines 503-508):
returns the empty list unconditionally. -/
def getTrendingRecommendations (_req : RecRequest) (_count : Nat) :
    List RecItem := []

/-- `_determine_user_type` (lines 353-364). -/
def determineUserType (interactions : List UserInteraction) : String :=
  if interactions.length = 0 then "cold_start"
  else if interactions.length < MIN_INTERACTIONS_FOR_CF then "sparse"
  else if 20 ≤ interactions.length then "active"
  else "normal"

/-- `_get_multi_algorithm_recommendations` (lines 127-214).  The
`cf_interactions` conversion at lines 135-143 is dead code (its result is
never used); exception handlers around each gatherer are not reachable in
the embedding. -/
def getMultiAlgorithmRecommendations (cf : CFState) (cb : CBState)
    (req : RecRequest) (prefs : Option UserPreferences)
    (interactions : List UserInteraction) (userType : String) : AlgoRecs :=
  { collaborative :=
      if userType ≠ "cold_start" ∧ cf.isTrained then
        cfGetRecommendations cf req.userId (min (req.count * 2) 50)
          req.excludeEvents
      else [],
    content :=
      if cb.isTrained then
        cbGetRecommendations cb req.userId prefs interactions
          (min (req.count * 2) 50) req.excludeEvents
      else [],
    popularity := getPopularityRecommendations req (min req.count 20),
    location :=
      if req.location.isSome ∧ ENABLE_LOCATION_BASED then
        some (getLocationBasedRecommendations req (min req.count 15))
      else none,
    trending :=
      if ENABLE_TRENDING_BOOST then
        some (getTrendingRecommendations req (min (req.count / 2) 10))
      else none }

/-- The four-entry weight dictionary of `HybridRecommender`. -/
structure HybridWeights where
  collaborative : ℚ
  content : ℚ
  popularity : ℚ
  diversity : ℚ
deriving DecidableEq

def baseWeights : HybridWeights :=
  { collaborative := COLLABORATIVE_WEIGHT, content := CONTENT_WEIGHT,
    popularity := POPULARITY_WEIGHT, diversity := DIVERSITY_WEIGHT }

/-- `_adjust_weights` (lines 306-351): per-user-type override, then
sequential redistribution away from empty CF/CB candidate lists, then
normalisation when the total is positive. -/
def adjustWeights (userType : String) (recs : AlgoRecs) : HybridWeights :=
  let w :=
    if userType = "cold_start" then
      { collaborative := 1/10, content := 1/2, popularity := 3/10,
        diversity := 1/10 : HybridWeights }
    else if userType = "active" then baseWeights
    else if userType = "sparse" then
      { collaborative := 3/10, content := 2/5, popularity := 1/5,
        diversity := 1/10 }
    else baseWeights
  let w :=
    if recs.collaborative = [] then
      { w with
        collaborative := 0,
        content := w.content + w.collaborative * (3/5),
        popularity := w.popularity + w.collaborative * (2/5) }
    else w
  let w :=
    if recs.content = [] then
      { w with
        content := 0,
        collaborative := w.collaborative + w.content * (3/5),
        popularity := w.popularity + w.content * (2/5) }
    else w
  let total := w.collaborative + w.content + w.popularity + w.diversity
  if 0 < total then
    { collaborative := w.collaborative / total, content := w.content / total,
      popularity := w.popularity / total, diversity := w.diversity / total }
  else w

/-- `adjusted_weights.get(algorithm, 0.0)` (line 228). -/
def weightFor (w : HybridWeights) (alg : String) : ℚ :=
  if alg = "collaborative" then w.collaborative
  else if alg = "content" then w.content
  else if alg = "popularity" then w.popularity
  else if alg = "diversity" then w.diversity
  else 0

/-- The accumulator entry of `event_scores` in `_combine_recommendations`
(lines 238-255), fused with the `event_details` first-occurrence record
(both dictionaries gain a key in the same iteration). -/
structure ScoreData where
  total : ℚ
  algorithmScores : List (String × ℚ)
  confidence : ℚ
  reasons : List String
  firstRec : RecItem
deriving DecidableEq

/-- Python dictionary store `d[k] = v` on an insertion-ordered assoc list. -/
def upsertAssoc : List (String × ℚ) → String → ℚ → List (String × ℚ)
  | [], k, v => [(k, v)]
  | (k0, v0) :: rest, k, v =>
    if k0 = k then (k0, v) :: rest else (k0, v0) :: upsertAssoc rest k v

def initScoreData (rec : RecItem) : ScoreData :=
  { total := 0, algorithmScores := [], confidence := 0, reasons := [],
    firstRec := rec }

/-- One candidate's contribution (lines 230-255): weighted score
accumulation, per-algorithm score store, max-confidence, reason-set union. -/
def updScoreData (w : ℚ) (alg : String) (rec : RecItem) (d : ScoreData) :
    ScoreData :=
  { total := d.total + rec.score * w * rec.confidence,
    algorithmScores := upsertAssoc d.algorithmScores alg rec.score,
    confidence := max d.confidence rec.confidence,
    reasons := insertAll d.reasons rec.reasons,
    firstRec := d.firstRec }

def upsertScoreTable (w : ℚ) (alg : String) (rec : RecItem) :
    List (String × ScoreData) → List (String × ScoreData)
  | [] => [(rec.eventId, updScoreData w alg rec (initScoreData rec))]
  | (k, d) :: rest =>
    if k = rec.eventId then (k, updScoreData w alg rec d) :: rest
    else (k, d) :: upsertScoreTable w alg rec rest

def addAlgorithmRecs (w : ℚ) (alg : String) (recs : List RecItem)
    (t : List (String × ScoreData)) : List (String × ScoreData) :=
  recs.foldl (fun t rec => upsertScoreTable w alg rec t) t

/-- The `for algorithm, recs in recommendations_by_algorithm.items()` loop of
`_combine_recommendations`, in dictionary insertion order. -/
def buildScoreTable (w : HybridWeights) (recs : AlgoRecs) :
    List (String × ScoreData) :=
  let t := addAlgorithmRecs (weightFor w "collaborative") "collaborative"
    recs.collaborative []
  let t := addAlgorithmRecs (weightFor w "content") "content" recs.content t
  let t := addAlgorithmRecs (weightFor w "popularity") "popularity"
    recs.popularity t
  let t :=
    match recs.location with
    | some l => addAlgorithmRecs (weightFor w "location") "location" l t
    | none => t
  match recs.trending with
  | some l => addAlgorithmRecs (weightFor w "trending") "trending" l t
  | none => t

/-- `_combine_recommendations` (lines 216-304): merge candidates by event id
with weighted scores, sort by total descending, keep `2 * count`, and emit
hybrid items ranked from 1.  The source also derives a `primary_algorithm`
per candidate (lines 272-276) that it never uses, and its
`if event_id not in event_details: continue` guard is unreachable because
both dictionaries share their key set. -/
def combineRecommendations (recs : AlgoRecs) (req : RecRequest)
    (userType : String) : List RecItem :=
  let w := adjustWeights userType recs
  let table := buildScoreTable w recs
  let top := (sortDescBy (fun q => q.2.total) table).take (req.count * 2)
  rankedMap (fun rank q =>
    { eventId := q.2.firstRec.eventId,
      score := min 1 q.2.total,
      algorithm := "hybrid",
      confidence := q.2.confidence,
      rank := rank,
      reasons := q.2.reasons.take 3,
      title := q.2.firstRec.title,
      category := q.2.firstRec.category,
      tags := q.2.firstRec.tags }) 1 top

/-- `rec.category or 'unknown'` (line 410/426). -/
def catOf (r : RecItem) : String :=
  if r.category = "" then "unknown" else r.category

/-- Python `max(items, key=lambda x: x.score)`: the first item attaining the
maximal score. -/
def firstMaxByQ : List RecItem → Option RecItem
  | [] => none
  | x :: xs =>
    match firstMaxByQ xs with
    | none => some x
    | some y => if x.score < y.score then some y else some x

/-- The highest-scored remaining item of one category (lines 426-429). -/
def pickBest (cat : String) (remaining : List RecItem) : Option RecItem :=
  firstMaxByQ (remaining.filter (fun r => catOf r = cat))

/-- One pass of the inner `for category in category_groups` loop of
`_diversify_recommendations` (lines 425-435): pick and remove the best item
per category, set the round-robin flag, break when `n` items are chosen. -/
def divRound (n : Nat) : List String → List RecItem → List RecItem → Bool →
    List RecItem × List RecItem × Bool
  | [], d, r, flag => (d, r, flag)
  | c :: cs, d, r, flag =>
    match pickBest c r with
    | none => divRound n cs d r flag
    | some b =>
      let d := d ++ [b]
      let r := r.erase b
      if n ≤ d.length then (d, r, true) else divRound n cs d r true

/-- The outer `while remaining and round_robin` loop (lines 422-438), with
explicit fuel; each executed round removes at least one remaining item, so
fuel `|recs| + 1` is never exhausted. -/
def divLoop (n : Nat) (cats : List String) :
    Nat → List RecItem → List RecItem → List RecItem × List RecItem
  | 0, d, r => (d, r)
  | fuel + 1, d, r =>
    if r = [] then (d, r)
    else
      let step := divRound n cats d r false
      if step.2.2 = false then (step.1, step.2.1)
      else if n ≤ step.1.length then (step.1, step.2.1)
      else divLoop n cats fuel step.1 step.2.1

/-- The category keys of `category_groups` in insertion order
(lines 408-413). -/
def categoryKeys (recs : List RecItem) : List String :=
  uniqueFirst (recs.map catOf)

/-- `_diversify_recommendations` (lines 400-448): round-robin across the
categories, each round taking the highest-scored unused item of each
category, until everything is consumed or the output reaches the input
length; then top up with the remaining items by descending score.  The
computed `max_per_category` (line 416) is never used by the source. -/
def diversifyRecommendations (recs : List RecItem) (df : ℚ) : List RecItem :=
  if df ≤ 0 ∨ recs = [] then recs
  else
    let cats := categoryKeys recs
    let out := divLoop recs.length cats (recs.length + 1) [] recs
    out.1 ++ (sortDescBy (fun x => x.score) out.2).take
      (recs.length - out.1.length)

/-- `exploration_count = max(1, int(len(recommendations) *
settings.EXPLORATION_FACTOR))` (line 454). -/
def explorationCount (n : Nat) : Nat :=
  max 1 (((n : ℚ) * EXPLORATION_FACTOR).floor.toNat)

/-- The pool drawn for exploration (lines 461-463). -/
def explorationPool (recs : List RecItem) (req : RecRequest) : List RecItem :=
  getPopularityRecommendations req (explorationCount recs.length * 2)

/-- The per-item marking of exploration candidates (lines 472-475). -/
def markExploration (r : RecItem) : RecItem :=
  { r with
    reasons := "Explore something new" :: r.reasons.take 2,
    algorithm := "hybrid",
    score := r.score * (4/5) }

/-- The exploration items that survive the duplicate filter (lines 466-475),
already marked. -/
def explorationItems (recs : List RecItem) (req : RecRequest) :
    List RecItem :=
  (((explorationPool recs req).filter
      (fun r => r.eventId ∉ recs.map RecItem.eventId)).take
    (explorationCount recs.length)).map markExploration

/-- `_add_exploration_items` (lines 450-487): drop the last
`exploration_count` items, append the surviving exploration items, and
re-sort by score descending.  The locally built `exclude_events` list
(line 459) is dead code: it is never passed on. -/
def addExplorationItems (recs : List RecItem) (req : RecRequest) :
    List RecItem :=
  let k := explorationCount recs.length
  if 0 < k then
    sortDescBy (fun x => x.score)
      (recs.take (recs.length - k) ++ explorationItems recs req)
  else recs

/-- `request.diversity_factor or settings.DIVERSITY_FACTOR` (line 374):
`None` and `0.0` are both falsy and fall back to the default. -/
def divFactorOf (req : RecRequest) : ℚ :=
  match req.diversityFactor with
  | none => DIVERSITY_FACTOR
  | some d => if d = 0 then DIVERSITY_FACTOR else d

/-- The final re-ranking loop `for i, rec in enumerate(final, 1)`
(lines 391-392). -/
def setRanks : Nat → List RecItem → List RecItem :=
  rankedMap (fun i r => { r with rank := i })

/-- `_apply_diversity_and_exploration` (lines 366-398). -/
def applyDiversityAndExploration (recs : List RecItem) (req : RecRequest) :
    List RecItem :=
  if recs = [] then recs
  else
    let df := divFactorOf req
    let r1 := if 0 < df then diversifyRecommendations recs df else recs
    let r2 := if 0 < EXPLORATION_FACTOR then addExplorationItems r1 req
      else r1
    setRanks 1 (r2.take req.count)

/-- Python `max(counts.items(), key=lambda x: x[1])`: first pair attaining
the maximal count. -/
def firstMaxByNat : List (String × Nat) → Option (String × Nat)
  | [] => none
  | x :: xs =>
    match firstMaxByNat xs with
    | none => some x
    | some y => if x.2 < y.2 then some y else some x

/-- `_get_dominant_algorithm` (lines 536-560). -/
def dominantAlgorithm (recs : AlgoRecs) : String :=
  let counts : List (String × Nat) :=
    [("collaborative", recs.collaborative.length),
     ("content", recs.content.length),
     ("popularity", recs.popularity.length)] ++
    (match recs.location with
     | some l => [("location", l.length)]
     | none => []) ++
    (match recs.trending with
     | some l => [("trending", l.length)]
     | none => [])
  match firstMaxByNat counts with
  | none => "hybrid"
  | some q =>
    if q.1 = "collaborative" then "collaborative_filtering"
    else if q.1 = "content" then "content_based"
    else if q.1 = "popularity" then "popularity_based"
    else if q.1 = "location" then "location_based"
    else if q.1 = "trending" then "trending"
    else "hybrid"

/-- `_calculate_profile_completeness` (lines 510-534). -/
def calculateProfileCompleteness (prefs : Option UserPreferences)
    (interactions : List UserInteraction) : ℚ :=
  let s : ℚ :=
    match prefs with
    | none => 0
    | some pr =>
      (if pr.preferredCategories ≠ [] then (1:ℚ)/5 else 0) +
      (if pr.preferredLocations ≠ [] then (3:ℚ)/20 else 0) +
      (if pr.interests ≠ [] then (3:ℚ)/20 else 0) +
      (if pr.priceRangeMin.isSome then (1:ℚ)/10 else 0) +
      (if pr.priceRangeMax.isSome then (1:ℚ)/10 else 0)
  let s := if 0 < interactions.length then
      s + min (3/10) ((interactions.length : ℚ) / 50)
    else s
  min 1 s

/-- The response envelope (`RecommendationResponse`); wall-clock fields are
not modelled. -/
structure RecResponse where
  userId : String
  recommendations : List RecItem
  totalCount : Nat
  algorithmUsed : String
  modelVersion : String
  userProfileCompleteness : ℚ
  coldStartUser : Bool
  fallbackUsed : Bool

/-- `HybridRecommender.get_recommendations` (lines 67-125). -/
def hybridGetRecommendations (cf : CFState) (cb : CBState) (req : RecRequest)
    (prefs : Option UserPreferences) (interactions : List UserInteraction) :
    RecResponse :=
  let userType := determineUserType interactions
  let recsMap :=
    getMultiAlgorithmRecommendations cf cb req prefs interactions userType
  let combined := combineRecommendations recsMap req userType
  let final := applyDiversityAndExploration combined req
  { userId := req.userId, recommendations := final,
    totalCount := final.length,
    algorithmUsed := dominantAlgorithm recsMap,
    modelVersion := "1.0.0",
    userProfileCompleteness := calculateProfileCompleteness prefs interactions,
    coldStartUser := decide (userType = "cold_start"),
    fallbackUsed := decide (interactions.length < MIN_INTERACTIONS_FOR_CF) }

/-- A four-item candidate pool: three items of category "a" (scores 0.9,
0.8, 0.7) and one of category "b" (score 0.6). -/
def divA1 : RecItem :=
  { eventId := "a1", score := 9/10, algorithm := "hybrid",
    confidence := 1/2, rank := 1, reasons := [], title := "",
    category := "a", tags := [] }

def divA2 : RecItem := { divA1 with eventId := "a2", score := 8/10 }

def divA3 : RecItem := { divA1 with eventId := "a3", score := 7/10 }

def divB1 : RecItem :=
  { divA1 with eventId := "b1", score := 6/10, category := "b" }

def divPool : List RecItem := [divA1, divA2, divA3, divB1]

/-- A sample item and request for witnesses. -/
def sampleItem : RecItem :=
  { eventId := "e1", score := 1/2, algorithm := "hybrid", confidence := 1/2,
    rank := 1, reasons := [], title := "t", category := "music", tags := [] }

def sampleReq : RecRequest :=
  { userId := "u1", count := 5, excludeEvents := [], diversityFactor := none,
    location := none }

/-- The per-item invariant of the response contract relative to an exclusion
list: scores and confidences in [0,1] and the event not excluded. -/
def itemOK (excl : List String) (it : RecItem) : Prop :=
  0 ≤ it.score ∧ it.score ≤ 1 ∧ 0 ≤ it.confidence ∧ it.confidence ≤ 1 ∧
    it.eventId ∉ excl

/-- Invariant of the merge table of `_combine_recommendations`: nonnegative
totals, confidences in [0,1], the cached first record carries the key, keys
not excluded and pairwise distinct. -/
def tableOK (excl : List String) (t : List (String × ScoreData)) : Prop :=
  (∀ q ∈ t, 0 ≤ q.2.total ∧ 0 ≤ q.2.confidence ∧ q.2.confidence ≤ 1 ∧
      q.2.firstRec.eventId = q.1 ∧ q.1 ∉ excl) ∧
    (t.map Prod.fst).Nodup

/-- A tiny trained CB state. -/
def trainedCB : CBState :=
  { isTrained := true,
    eventFeatures := [("e9",
      { title := "T", shortDescription := "", category := "music",
        tags := [], organizerName := "O", venueName := "V",
        isVirtual := false, price := 0, textContent := "T",
        startTime := none, curationScore := 1/2 })],
    hasEmbedding := fun _ => false,
    textSimilarity := fun _ _ => 0,
    now := 0 }

end EventsApp

namespace EventsApp

theorem mem_uniqueFirstAux (a : String) : ∀ (l seen : List String),
    a ∈ uniqueFirstAux l seen ↔ a ∈ l ∧ a ∉ seen := by
  intro l
  induction l with
  | nil => intro seen; simp [uniqueFirstAux]
  | cons x xs ih =>
    intro seen
    simp only [uniqueFirstAux]
    by_cases hx : x ∈ seen
    · rw [if_pos hx, ih]
      simp only [List.mem_cons]
      constructor
      · rintro ⟨h1, h2⟩
        exact ⟨Or.inr h1, h2⟩
      · rintro ⟨h1 | h1, h2⟩
        · exact absurd (h1 ▸ hx) h2
        · exact ⟨h1, h2⟩
    · rw [if_neg hx]
      simp only [List.mem_cons, ih]
      constructor
      · rintro (rfl | ⟨h1, h2⟩)
        · exact ⟨Or.inl rfl, hx⟩
        · exact ⟨Or.inr h1, fun hs => h2 (Or.inr hs)⟩
      · rintro ⟨h1 | h1, h2⟩
        · exact Or.inl h1
        · by_cases hax : a = x
          · exact Or.inl hax
          · exact Or.inr ⟨h1, by simp [List.mem_cons, hax, h2]⟩

theorem mem_uniqueFirst (a : String) : ∀ l : List String,
    a ∈ uniqueFirst l ↔ a ∈ l := by
  intro l
  rw [uniqueFirst, mem_uniqueFirstAux]
  simp

theorem sortDescBy_perm {α : Type} (key : α → ℚ) (l : List α) :
    List.Perm (sortDescBy key l) l :=
  List.perm_insertionSort _ l

theorem mem_sortDescBy {α : Type} (key : α → ℚ) {l : List α} {a : α} :
    a ∈ sortDescBy key l ↔ a ∈ l :=
  (sortDescBy_perm key l).mem_iff

theorem sortDescBy_sorted {α : Type} (key : α → ℚ) (l : List α) :
    (sortDescBy key l).Pairwise (scoreGE key) :=
  List.sorted_insertionSort _ l

theorem mem_rankedMap {α β : Type} (g : Nat → α → β) :
    ∀ (n : Nat) (l : List α) (y : β), y ∈ rankedMap g n l →
      ∃ m x, x ∈ l ∧ y = g m x := by
  intro n l
  induction l generalizing n with
  | nil => simp [rankedMap]
  | cons x xs ih =>
    intro y hy
    simp only [rankedMap, List.mem_cons] at hy
    rcases hy with rfl | hy
    · exact ⟨n, x, List.mem_cons_self _ _, rfl⟩
    · obtain ⟨m, z, hz, rfl⟩ := ih (n + 1) y hy
      exact ⟨m, z, List.mem_cons_of_mem _ hz, rfl⟩

theorem pairwise_rankedMap {α β : Type} (g : Nat → α → β) (R : α → α → Prop)
    (S : β → β → Prop) (hg : ∀ m n x y, R x y → S (g m x) (g n y)) :
    ∀ (n : Nat) (l : List α), l.Pairwise R → (rankedMap g n l).Pairwise S := by
  intro n l
  induction l generalizing n with
  | nil => intro _; simp [rankedMap]
  | cons x xs ih =>
    intro hp
    rcases List.pairwise_cons.1 hp with ⟨hx, hxs⟩
    refine List.pairwise_cons.2 ⟨?_, ih (n + 1) hxs⟩
    intro y hy
    obtain ⟨m, z, hz, rfl⟩ := mem_rankedMap g (n + 1) xs y hy
    exact hg _ _ _ _ (hx z hz)

theorem length_rankedMap {α β : Type} (g : Nat → α → β) :
    ∀ (n : Nat) (l : List α), (rankedMap g n l).length = l.length := by
  intro n l
  induction l generalizing n with
  | nil => rfl
  | cons x xs ih => simp [rankedMap, ih]

theorem cfPopDenom_pos (s : CFState) (entries : List (Nat × Nat × ℚ)) :
    0 < cfPopDenom s entries := by
  by_cases h :
    0 < listMaxQ ((List.range s.events.length).map (cfPopularity entries))
  · simp only [cfPopDenom, if_pos h]
    exact h
  · simp [cfPopDenom, h]

theorem foldl_max_init_le (xs : List ℚ) : ∀ a : ℚ, a ≤ xs.foldl max a := by
  induction xs with
  | nil => intro a; exact le_refl a
  | cons y ys ih =>
    intro a
    exact le_trans (le_max_left a y) (ih (max a y))

theorem le_foldl_max (xs : List ℚ) : ∀ (a x : ℚ), x ∈ xs →
    x ≤ xs.foldl max a := by
  induction xs with
  | nil => intro a x hx; simp at hx
  | cons y ys ih =>
    intro a x hx
    rcases List.mem_cons.1 hx with rfl | hx
    · exact le_trans (le_max_right a x) (foldl_max_init_le ys (max a x))
    · exact ih (max a y) x hx

theorem le_listMaxQ {l : List ℚ} {x : ℚ} (hx : x ∈ l) : x ≤ listMaxQ l := by
  cases l with
  | nil => simp at hx
  | cons y ys =>
    rcases List.mem_cons.1 hx with rfl | hx
    · exact foldl_max_init_le ys x
    · exact le_foldl_max ys y x hx

theorem cfPopularity_nonneg {entries : List (Nat × Nat × ℚ)}
    (hnn : ∀ t ∈ entries, 0 ≤ t.2.2) (j : Nat) :
    0 ≤ cfPopularity entries j := by
  apply List.sum_nonneg
  intro x hx
  obtain ⟨t, ht, rfl⟩ := List.mem_map.1 hx
  exact hnn t (List.mem_of_mem_filter ht)

theorem cfPop_score_bounds {s : CFState} {entries : List (Nat × Nat × ℚ)}
    (hnn : ∀ t ∈ entries, 0 ≤ t.2.2) {j : Nat} (hj : j < s.events.length) :
    0 ≤ cfPopularity entries j / cfPopDenom s entries ∧
      cfPopularity entries j / cfPopDenom s entries ≤ 1 := by
  have hpos := cfPopDenom_pos s entries
  have hnneg := cfPopularity_nonneg hnn j
  refine ⟨div_nonneg hnneg (le_of_lt hpos), ?_⟩
  have hmem : cfPopularity entries j ∈
      (List.range s.events.length).map (cfPopularity entries) :=
    List.mem_map_of_mem _ (List.mem_range.2 hj)
  have hle := le_listMaxQ hmem
  by_cases hmax :
    0 < listMaxQ ((List.range s.events.length).map (cfPopularity entries))
  · have hd : cfPopDenom s entries =
        listMaxQ ((List.range s.events.length).map (cfPopularity entries)) :=
      by simp [cfPopDenom, hmax]
    rw [hd]
    exact (div_le_one hmax).2 hle
  · have hz : cfPopularity entries j = 0 :=
      le_antisymm (le_trans hle (not_lt.1 hmax)) hnneg
    rw [hz, zero_div]
    norm_num

/-- An event-decoder value that lands in `exclude_events` has its index in
the encoder-mapped exclusion list (given distinct event ids). -/
theorem events_getD_not_excluded {s : CFState} (hnd : s.events.Nodup)
    {excl : List String} {j : Nat} (hj : j < s.events.length)
    (h : s.events.getD j "" ∈ excl) :
    j ∈ (excl.filter (fun e => e ∈ s.events)).map
      (fun e => s.events.indexOf e) := by
  have hget : s.events.getD j "" = s.events.get ⟨j, hj⟩ := by
    rw [List.getD_eq_getElem?_getD, List.getElem?_eq_getElem hj]
    rfl
  have hev : s.events.get ⟨j, hj⟩ ∈ s.events := List.get_mem _ _ hj
  have hfil : s.events.get ⟨j, hj⟩ ∈
      excl.filter (fun x => decide (x ∈ s.events)) :=
    List.mem_filter.2 ⟨hget ▸ h, by simp [hev]⟩
  refine List.mem_map.2 ⟨s.events.get ⟨j, hj⟩, hfil, ?_⟩
  have hlt : s.events.indexOf (s.events.get ⟨j, hj⟩) < s.events.length :=
    List.indexOf_lt_length.2 hev
  have hidx : s.events.get ⟨s.events.indexOf (s.events.get ⟨j, hj⟩), hlt⟩ =
      s.events.get ⟨j, hj⟩ := List.indexOf_get hlt
  have hfin := (hnd.get_inj_iff).1 hidx
  exact congrArg Fin.val hfin

theorem cfPopularityFallback_itemOK (s : CFState) (count : Nat)
    (excl : List String) (hnd : s.events.Nodup)
    (hnn : ∀ entries, s.interactionMatrix = some entries →
      ∀ t ∈ entries, 0 ≤ t.2.2) :
    ∀ it ∈ cfPopularityFallback s count excl, itemOK excl it := by
  intro it hit
  rcases hm : s.interactionMatrix with _ | entries
  · simp [cfPopularityFallback, hm] at hit
  · simp only [cfPopularityFallback, hm] at hit
    obtain ⟨m, j, hj, rfl⟩ := mem_rankedMap _ _ _ _ hit
    have hjf := List.mem_of_mem_take hj
    have hjo := List.mem_filter.1 hjf
    have hjr : j < s.events.length :=
      List.mem_range.1 ((mem_sortDescBy _).1 hjo.1)
    have hnex : j ∉ (excl.filter (fun e => e ∈ s.events)).map
        (fun e => s.events.indexOf e) := by
      have := of_decide_eq_true hjo.2
      simpa using this
    have hb := cfPop_score_bounds (s := s) (hnn entries hm) hjr
    refine ⟨hb.1, hb.2, by norm_num, by norm_num, ?_⟩
    intro hmem
    exact hnex (events_getD_not_excluded hnd hjr hmem)

theorem cfGetRecommendations_itemOK (s : CFState) (u : String) (count : Nat)
    (excl : List String) (hnd : s.events.Nodup)
    (hnn : ∀ entries, s.interactionMatrix = some entries →
      ∀ t ∈ entries, 0 ≤ t.2.2) :
    ∀ it ∈ cfGetRecommendations s u count excl, itemOK excl it := by
  intro it hit
  unfold cfGetRecommendations at hit
  by_cases h1 : s.isTrained = false
  · rw [if_pos h1] at hit
    simp at hit
  · rw [if_neg h1] at hit
    by_cases h2 : u ∉ s.users
    · rw [if_pos h2] at hit
      exact cfPopularityFallback_itemOK s count excl hnd hnn it hit
    · rw [if_neg h2] at hit
      split at hit
      · simp at hit
      · rename_i entries hm
        obtain ⟨m, j, hj, rfl⟩ := mem_rankedMap _ _ _ _ hit
        have hjf := List.mem_of_mem_take hj
        have hjo := List.mem_filter.1 hjf
        have hjr : j < s.events.length :=
          List.mem_range.1 ((mem_sortDescBy _).1 hjo.1)
        have hnotex := of_decide_eq_true hjo.2
        have hnex : j ∉ (excl.filter (fun e => e ∈ s.events)).map
            (fun e => s.events.indexOf e) := by
          intro hcontra
          apply hnotex
          unfold cfExcludeIdxs
          exact List.mem_append.2 (Or.inr hcontra)
        refine ⟨le_min (by norm_num) (le_max_left 0 _), min_le_left 1 _,
          ?_, ?_, ?_⟩
        · exact le_min (by norm_num) (by positivity)
        · exact le_trans (min_le_left _ _) (by norm_num)
        · intro hmem
          exact hnex (events_getD_not_excluded hnd hjr hmem)

theorem calculateConfidence_bounds (p : UserProfile) :
    0 ≤ calculateConfidence p ∧ calculateConfidence p ≤ 1 := by
  unfold calculateConfidence
  by_cases h1 : p.preferredCategories = [] <;>
    by_cases h2 : p.preferredTags = [] <;>
    by_cases h3 : p.textPreferences = [] <;>
    by_cases h4 : p.preferredLocations = [] <;>
    simp [h1, h2, h3, h4, min_def] <;> norm_num

theorem cbGetRecommendations_itemOK (s : CBState) (u : String)
    (prefs : Option UserPreferences) (inter : List UserInteraction)
    (count : Nat) (excl : List String) :
    ∀ it ∈ cbGetRecommendations s u prefs inter count excl,
      itemOK excl it := by
  intro it hit
  unfold cbGetRecommendations at hit
  by_cases h1 : s.isTrained = false
  · rw [if_pos h1] at hit
    simp at hit
  · rw [if_neg h1] at hit
    obtain ⟨m, q, hq, rfl⟩ := mem_rankedMap _ _ _ _ hit
    have hq1 := List.mem_of_mem_take hq
    have hq2 := (mem_sortDescBy _).1 hq1
    obtain ⟨pr, hpr, hpq⟩ := List.mem_map.1 hq2
    have hex : pr.1 ∉ excl := by
      have := (List.mem_filter.1 hpr).2
      simpa using this
    refine ⟨le_min (by norm_num) (le_max_left 0 _), min_le_left 1 _,
      (calculateConfidence_bounds _).1, (calculateConfidence_bounds _).2,
      ?_⟩
    show q.1 ∉ excl
    rw [← hpq]
    exact hex

theorem adjustWeights_nonneg (ut : String) (recs : AlgoRecs) :
    0 ≤ (adjustWeights ut recs).collaborative ∧
      0 ≤ (adjustWeights ut recs).content ∧
      0 ≤ (adjustWeights ut recs).popularity ∧
      0 ≤ (adjustWeights ut recs).diversity := by
  simp only [adjustWeights, baseWeights]
  split_ifs <;>
    norm_num [COLLABORATIVE_WEIGHT, CONTENT_WEIGHT, POPULARITY_WEIGHT,
      DIVERSITY_WEIGHT]

theorem weightFor_nonneg {w : HybridWeights}
    (h : 0 ≤ w.collaborative ∧ 0 ≤ w.content ∧ 0 ≤ w.popularity ∧
      0 ≤ w.diversity) (alg : String) : 0 ≤ weightFor w alg := by
  unfold weightFor
  split_ifs
  exacts [h.1, h.2.1, h.2.2.1, h.2.2.2, le_refl 0]

theorem mem_keys_upsert (w : ℚ) (alg : String) (rec : RecItem) :
    ∀ (t : List (String × ScoreData)) (k : String),
      k ∈ (upsertScoreTable w alg rec t).map Prod.fst ↔
        k ∈ t.map Prod.fst ∨ k = rec.eventId := by
  intro t
  induction t with
  | nil =>
    intro k
    simp [upsertScoreTable]
  | cons q rest ih =>
    intro k
    obtain ⟨k0, d⟩ := q
    simp only [upsertScoreTable]
    by_cases hk : k0 = rec.eventId
    · rw [if_pos hk]
      subst hk
      simp only [List.map_cons, List.mem_cons]
      tauto
    · rw [if_neg hk]
      simp only [List.map_cons, List.mem_cons, ih]
      tauto

theorem updScoreData_inv {excl : List String} {w : ℚ} {alg : String}
    {rec : RecItem} (hw : 0 ≤ w) (hrec : itemOK excl rec) {k : String}
    {d : ScoreData}
    (hd : 0 ≤ d.total ∧ 0 ≤ d.confidence ∧ d.confidence ≤ 1 ∧
      d.firstRec.eventId = k ∧ k ∉ excl) :
    0 ≤ (updScoreData w alg rec d).total ∧
      0 ≤ (updScoreData w alg rec d).confidence ∧
      (updScoreData w alg rec d).confidence ≤ 1 ∧
      (updScoreData w alg rec d).firstRec.eventId = k ∧ k ∉ excl := by
  obtain ⟨hs0, hs1, hc0, hc1, hxc⟩ := hrec
  obtain ⟨ht, hdc0, hdc1, hfk, hkx⟩ := hd
  simp only [updScoreData]
  refine ⟨?_, ?_, ?_, hfk, hkx⟩
  · exact add_nonneg ht (mul_nonneg (mul_nonneg hs0 hw) hc0)
  · exact le_trans hdc0 (le_max_left _ _)
  · exact max_le hdc1 hc1

theorem upsert_tableOK {excl : List String} {w : ℚ} {alg : String}
    {rec : RecItem} (hw : 0 ≤ w) (hrec : itemOK excl rec) :
    ∀ t : List (String × ScoreData), tableOK excl t →
      tableOK excl (upsertScoreTable w alg rec t) := by
  intro t
  induction t with
  | nil =>
    intro _
    refine ⟨?_, by simp [upsertScoreTable]⟩
    intro q hq
    simp only [upsertScoreTable, List.mem_singleton] at hq
    subst hq
    exact updScoreData_inv hw hrec
      ⟨by simp [initScoreData], by simp [initScoreData],
       by simp [initScoreData], rfl, hrec.2.2.2.2⟩
  | cons q rest ih =>
    intro htab
    obtain ⟨k0, d⟩ := q
    obtain ⟨hinv, hnd⟩ := htab
    have hinv0 := hinv (k0, d) (List.mem_cons_self _ _)
    have hinvr : ∀ q ∈ rest, 0 ≤ q.2.total ∧ 0 ≤ q.2.confidence ∧
        q.2.confidence ≤ 1 ∧ q.2.firstRec.eventId = q.1 ∧ q.1 ∉ excl :=
      fun q hq => hinv q (List.mem_cons_of_mem _ hq)
    rw [List.map_cons, List.nodup_cons] at hnd
    simp only [upsertScoreTable]
    by_cases hk : k0 = rec.eventId
    · rw [if_pos hk]
      refine ⟨?_, ?_⟩
      · intro q hq
        rcases List.mem_cons.1 hq with rfl | hq
        · exact updScoreData_inv hw hrec hinv0
        · exact hinvr q hq
      · rw [List.map_cons, List.nodup_cons]
        exact hnd
    · rw [if_neg hk]
      obtain ⟨hrinv, hrnd⟩ := ih ⟨hinvr, hnd.2⟩
      refine ⟨?_, ?_⟩
      · intro q hq
        rcases List.mem_cons.1 hq with rfl | hq
        · exact hinv0
        · exact hrinv q hq
      · rw [List.map_cons, List.nodup_cons]
        refine ⟨?_, hrnd⟩
        intro hcontra
        rcases (mem_keys_upsert w alg rec rest k0).1 hcontra with h | h
        · exact hnd.1 h
        · exact hk h

theorem addAlgorithmRecs_tableOK {excl : List String} (w : ℚ) (alg : String)
    (hw : 0 ≤ w) :
    ∀ (recs : List RecItem), (∀ it ∈ recs, itemOK excl it) →
      ∀ t, tableOK excl t → tableOK excl (addAlgorithmRecs w alg recs t) := by
  intro recs
  induction recs with
  | nil =>
    intro _ t ht
    simpa [addAlgorithmRecs] using ht
  | cons rec rest ih =>
    intro hrecs t ht
    simp only [addAlgorithmRecs, List.foldl_cons] at *
    exact ih (fun it hit => hrecs it (List.mem_cons_of_mem _ hit)) _
      (upsert_tableOK hw (hrecs rec (List.mem_cons_self _ _)) t ht)

theorem buildScoreTable_tableOK {excl : List String} (w : HybridWeights)
    (hw : 0 ≤ w.collaborative ∧ 0 ≤ w.content ∧ 0 ≤ w.popularity ∧
      0 ≤ w.diversity)
    (recs : AlgoRecs)
    (hc : ∀ it ∈ recs.collaborative, itemOK excl it)
    (hcb : ∀ it ∈ recs.content, itemOK excl it)
    (hp : ∀ it ∈ recs.popularity, itemOK excl it)
    (hl : ∀ l, recs.location = some l → ∀ it ∈ l, itemOK excl it)
    (htr : ∀ l, recs.trending = some l → ∀ it ∈ l, itemOK excl it) :
    tableOK excl (buildScoreTable w recs) := by
  have h0 : tableOK excl [] := ⟨by simp, by simp⟩
  have h1 := addAlgorithmRecs_tableOK (weightFor w "collaborative")
    "collaborative" (weightFor_nonneg hw _) recs.collaborative hc _ h0
  have h2 := addAlgorithmRecs_tableOK (weightFor w "content") "content"
    (weightFor_nonneg hw _) recs.content hcb _ h1
  have h3 := addAlgorithmRecs_tableOK (weightFor w "popularity") "popularity"
    (weightFor_nonneg hw _) recs.popularity hp _ h2
  simp only [buildScoreTable]
  rcases hloc : recs.location with _ | lloc <;>
    rcases htre : recs.trending with _ | ltre
  · simpa [hloc, htre] using h3
  · simp only [hloc, htre]
    exact addAlgorithmRecs_tableOK (weightFor w "trending") "trending"
      (weightFor_nonneg hw _) ltre (htr ltre htre) _ h3
  · simp only [hloc, htre]
    exact addAlgorithmRecs_tableOK (weightFor w "location") "location"
      (weightFor_nonneg hw _) lloc (hl lloc hloc) _ h3
  · simp only [hloc, htre]
    exact addAlgorithmRecs_tableOK (weightFor w "trending") "trending"
      (weightFor_nonneg hw _) ltre (htr ltre htre) _
      (addAlgorithmRecs_tableOK (weightFor w "location") "location"
        (weightFor_nonneg hw _) lloc (hl lloc hloc) _ h3)

theorem map_rankedMap {α β γ : Type} (g : Nat → α → β) (f : β → γ)
    (q : α → γ) (hf : ∀ n x, f (g n x) = q x) :
    ∀ (n : Nat) (l : List α), (rankedMap g n l).map f = l.map q := by
  intro n l
  induction l generalizing n with
  | nil => rfl
  | cons x xs ih => simp [rankedMap, hf, ih]

theorem nodup_map_rankedMap {α β γ : Type} (g : Nat → α → β) (f : β → γ)
    (q : α → γ) (hf : ∀ n x, f (g n x) = q x) (n : Nat) (l : List α)
    (h : (l.map q).Nodup) : ((rankedMap g n l).map f).Nodup := by
  rw [map_rankedMap g f q hf]
  exact h

/-- C2 counterexample: on an untrained CF state holding interaction data,
`get_recommendations` returns `[]` (lines 157-159) and not the popularity
fallback, which is non-empty there; the claim's "untrained OR user absent
implies fallback" is false on the untrained side. -/
theorem c2_counterexample :
    cfGetRecommendations untrainedCF "u9" 5 [] = [] ∧
      cfPopularityFallback untrainedCF 5 [] ≠ [] ∧
      cfGetRecommendations untrainedCF "u9" 5 [] ≠
        cfPopularityFallback untrainedCF 5 [] := by
  have hlen : (cfPopularityFallback untrainedCF 5 []).length = 1 := rfl
  have hne : cfPopularityFallback untrainedCF 5 [] ≠ [] := by
    intro h
    rw [h] at hlen
    simp at hlen
  refine ⟨rfl, hne, ?_⟩
  rw [show cfGetRecommendations untrainedCF "u9" 5 [] = [] from rfl]
  exact fun h => hne h.symm

/-- C2 amended: when the model is trained and the user is absent from the
user index, CF inference returns the popularity fallback (events ranked by
column-sum of R, scores normalised by the maximum column-sum, confidence
0.6, reason "Popular event among all users"); when the model is untrained it
returns the empty list instead. -/
theorem c2_amended (s : CFState) (u : String) (count : Nat)
    (excl : List String) (ht : s.isTrained = true) (hu : u ∉ s.users) :
    cfGetRecommendations s u count excl = cfPopularityFallback s count excl ∧
      (∀ (s' : CFState) (u' : String) (count' : Nat) (excl' : List String),
          s'.isTrained = false → cfGetRecommendations s' u' count' excl' = []) ∧
      (∀ it ∈ cfPopularityFallback s count excl,
          it.confidence = 3/5 ∧
          it.reasons = ["Popular event among all users"] ∧
          it.algorithm = "popularity_based" ∧
          ∃ entries, s.interactionMatrix = some entries ∧
            ∃ j, j < s.events.length ∧ it.eventId = s.events.getD j "" ∧
              it.score = cfPopularity entries j / cfPopDenom s entries) ∧
      (cfPopularityFallback s count excl).Pairwise
        (fun a b => b.score ≤ a.score) := by
  have h1 : ¬ (s.isTrained = false) := by simp [ht]
  refine ⟨?_, ?_, ?_, ?_⟩
  · unfold cfGetRecommendations
    rw [if_neg h1, if_pos hu]
  · intro s' u' count' excl' h
    unfold cfGetRecommendations
    rw [if_pos h]
  · intro it hit
    rcases hm : s.interactionMatrix with _ | entries
    · simp [cfPopularityFallback, hm] at hit
    · simp only [cfPopularityFallback, hm] at hit
      obtain ⟨m, j, hj, rfl⟩ := mem_rankedMap _ _ _ _ hit
      have hjr : j ∈ List.range s.events.length :=
        (mem_sortDescBy _).1
          (List.mem_of_mem_filter (List.mem_of_mem_take hj))
      exact ⟨rfl, rfl, rfl, entries, rfl, j, List.mem_range.1 hjr, rfl, rfl⟩
  · rcases hm : s.interactionMatrix with _ | entries
    · simp [cfPopularityFallback, hm]
    · simp only [cfPopularityFallback, hm]
      apply pairwise_rankedMap _ (scoreGE (cfPopularity entries))
      · intro m n x y hxy
        have hd := cfPopDenom_pos s entries
        exact (div_le_div_iff_of_pos_right hd).2 hxy
      · exact List.Pairwise.sublist
          ((List.take_sublist _ _).trans (List.filter_sublist _))
          (sortDescBy_sorted _ _)

/-- C2 amended witness: on the concrete trained state with an unknown user,
inference returns exactly the popularity fallback. -/
theorem c2_amended_witness :
    cfGetRecommendations trainedCF "u9" 2 [] =
      cfPopularityFallback trainedCF 2 [] :=
  (c2_amended trainedCF "u9" 2 [] rfl (by decide)).1

/-- C9: the hybrid orchestrator's popularity, location and trending
candidate generators return the empty list unconditionally; consequently the
multi-algorithm candidate map never carries an item under those keys, and
the exploration step's popularity pool (and hence its surviving item list)
is always empty. -/
theorem c9_stub_generators :
    (∀ (req : RecRequest) (count : Nat),
        getPopularityRecommendations req count = [] ∧
        getLocationBasedRecommendations req count = [] ∧
        getTrendingRecommendations req count = []) ∧
      (∀ (cf : CFState) (cb : CBState) (req : RecRequest)
          (prefs : Option UserPreferences)
          (interactions : List UserInteraction) (ut : String),
        (getMultiAlgorithmRecommendations cf cb req prefs interactions
            ut).popularity = [] ∧
        ((getMultiAlgorithmRecommendations cf cb req prefs interactions
            ut).location = none ∨
          (getMultiAlgorithmRecommendations cf cb req prefs interactions
            ut).location = some []) ∧
        (getMultiAlgorithmRecommendations cf cb req prefs interactions
            ut).trending = some []) ∧
      (∀ (recs : List RecItem) (req : RecRequest),
        explorationPool recs req = [] ∧ explorationItems recs req = []) := by
  refine ⟨fun req count => ⟨rfl, rfl, rfl⟩, ?_, fun recs req =>
    ⟨rfl, by simp [explorationItems, explorationPool,
      getPopularityRecommendations]⟩⟩
  intro cf cb req prefs interactions ut
  refine ⟨rfl, ?_, rfl⟩
  by_cases h : req.location.isSome ∧ ENABLE_LOCATION_BASED
  · right
    simp [getMultiAlgorithmRecommendations, h,
      getLocationBasedRecommendations]
  · left
    simp only [getMultiAlgorithmRecommendations]
    rw [if_neg h]

/-- C10: whenever the merged list is non-empty, the exploration step drops
exactly the last `max(1, ⌊n · EXPLORATION_FACTOR⌋)` of its `n` items
(re-sorting the survivors by score); since no exploration item ever survives
the (empty) popularity pool, the output is strictly shorter than the
input. -/
theorem c10_exploration_shrinks (recs : List RecItem) (req : RecRequest)
    (hne : recs ≠ []) :
    addExplorationItems recs req =
        sortDescBy (fun x => x.score)
          (recs.take (recs.length - explorationCount recs.length)) ∧
      explorationCount recs.length =
        max 1 (((recs.length : ℚ) * EXPLORATION_FACTOR).floor.toNat) ∧
      (addExplorationItems recs req).length =
        recs.length - explorationCount recs.length ∧
      (addExplorationItems recs req).length < recs.length ∧
      0 < EXPLORATION_FACTOR := by
  have hk : 0 < explorationCount recs.length :=
    Nat.lt_of_lt_of_le Nat.one_pos (le_max_left 1 _)
  have heq : addExplorationItems recs req =
      sortDescBy (fun x => x.score)
        (recs.take (recs.length - explorationCount recs.length)) := by
    unfold addExplorationItems
    rw [if_pos hk]
    simp [explorationItems, explorationPool, getPopularityRecommendations]
  have hlen : (addExplorationItems recs req).length =
      recs.length - explorationCount recs.length := by
    rw [heq]
    rw [(sortDescBy_perm _ _).length_eq, List.length_take]
    omega
  refine ⟨heq, rfl, hlen, ?_, by norm_num [EXPLORATION_FACTOR]⟩
  rw [hlen]
  have hpos : 0 < recs.length := List.length_pos.2 hne
  omega

/-- C10 witness at a one-item list: the output is empty, strictly shorter
than the input. -/
theorem c10_exploration_shrinks_witness :
    (addExplorationItems [sampleItem] sampleReq).length <
      ([sampleItem] : List RecItem).length :=
  (c10_exploration_shrinks [sampleItem] sampleReq (by simp)).2.2.2.1

theorem firstMaxByQ_mem : ∀ (l : List RecItem) (y : RecItem),
    firstMaxByQ l = some y → y ∈ l := by
  intro l
  induction l with
  | nil => intro y h; simp [firstMaxByQ] at h
  | cons x xs ih =>
    intro y h
    simp only [firstMaxByQ] at h
    rcases hm : firstMaxByQ xs with _ | z
    · rw [hm] at h
      simp at h
      simp [h]
    · rw [hm] at h
      simp only [] at h
      by_cases hc : x.score < z.score
      · rw [if_pos hc] at h
        exact List.mem_cons_of_mem _ (ih y (hm.trans (by rw [h])))
      · rw [if_neg hc] at h
        simp at h
        simp [h]

theorem firstMaxByQ_ne_none {l : List RecItem} (h : l ≠ []) :
    firstMaxByQ l ≠ none := by
  cases l with
  | nil => exact absurd rfl h
  | cons x xs =>
    simp only [firstMaxByQ]
    rcases firstMaxByQ xs with _ | z
    · simp
    · by_cases hc : x.score < z.score <;> simp [hc]

theorem pickBest_mem {c : String} {r : List RecItem} {b : RecItem}
    (h : pickBest c r = some b) : b ∈ r :=
  List.mem_of_mem_filter (firstMaxByQ_mem _ _ h)

theorem pickBest_of_mem {x : RecItem} {r : List RecItem} (hx : x ∈ r) :
    pickBest (catOf x) r ≠ none := by
  apply firstMaxByQ_ne_none
  intro hemp
  have : x ∈ r.filter (fun q => catOf q = catOf x) :=
    List.mem_filter.2 ⟨hx, by simp⟩
  rw [hemp] at this
  simp at this

theorem divRound_perm (n : Nat) :
    ∀ (cats : List String) (d r : List RecItem) (flag : Bool),
      List.Perm ((divRound n cats d r flag).1 ++
        (divRound n cats d r flag).2.1) (d ++ r) := by
  intro cats
  induction cats with
  | nil => intro d r flag; simp [divRound]
  | cons c cs ih =>
    intro d r flag
    rcases hp : pickBest c r with _ | b
    · simp only [divRound, hp]
      exact ih d r flag
    · have hb : b ∈ r := pickBest_mem hp
      have hstep : List.Perm ((d ++ [b]) ++ r.erase b) (d ++ r) := by
        rw [List.append_assoc]
        exact List.Perm.append_left d
          (by simpa using (List.perm_cons_erase hb).symm)
      simp only [divRound, hp]
      by_cases hn : n ≤ (d ++ [b]).length
      · rw [if_pos hn]
        exact hstep
      · rw [if_neg hn]
        exact ((ih (d ++ [b]) (r.erase b) true)).trans hstep

theorem divRound_sub (n : Nat) :
    ∀ (cats : List String) (d r : List RecItem) (flag : Bool),
      (divRound n cats d r flag).2.1.Sublist r := by
  intro cats
  induction cats with
  | nil => intro d r flag; simp [divRound]
  | cons c cs ih =>
    intro d r flag
    rcases hp : pickBest c r with _ | b
    · simp only [divRound, hp]
      exact ih d r flag
    · simp only [divRound, hp]
      by_cases hn : n ≤ (d ++ [b]).length
      · rw [if_pos hn]
        exact List.erase_sublist _ _
      · rw [if_neg hn]
        exact (ih (d ++ [b]) (r.erase b) true).trans (List.erase_sublist _ _)

theorem divRound_flag_mono (n : Nat) :
    ∀ (cats : List String) (d r : List RecItem),
      (divRound n cats d r true).2.2 = true := by
  intro cats
  induction cats with
  | nil => intro d r; simp [divRound]
  | cons c cs ih =>
    intro d r
    rcases hp : pickBest c r with _ | b
    · simp only [divRound, hp]
      exact ih d r
    · simp only [divRound, hp]
      by_cases hn : n ≤ (d ++ [b]).length
      · rw [if_pos hn]
      · rw [if_neg hn]
        exact ih (d ++ [b]) (r.erase b)

theorem divRound_false (n : Nat) :
    ∀ (cats : List String) (d r : List RecItem),
      (divRound n cats d r false).2.2 = false →
        (divRound n cats d r false).1 = d ∧
        (divRound n cats d r false).2.1 = r ∧
        ∀ c ∈ cats, pickBest c r = none := by
  intro cats
  induction cats with
  | nil => intro d r _; exact ⟨rfl, rfl, by simp⟩
  | cons c cs ih =>
    intro d r h
    rcases hp : pickBest c r with _ | b
    · simp only [divRound, hp] at h ⊢
      obtain ⟨h1, h2, h3⟩ := ih d r h
      exact ⟨h1, h2, fun c' hc' => by
        rcases List.mem_cons.1 hc' with rfl | hmem
        · exact hp
        · exact h3 c' hmem⟩
    · exfalso
      simp only [divRound, hp] at h
      by_cases hn : n ≤ (d ++ [b]).length
      · rw [if_pos hn] at h
        simp at h
      · rw [if_neg hn] at h
        rw [divRound_flag_mono n cs (d ++ [b]) (r.erase b)] at h
        simp at h

theorem divRound_progress (n : Nat) :
    ∀ (cats : List String) (d r : List RecItem),
      (divRound n cats d r false).2.2 = true →
        (divRound n cats d r false).2.1.length < r.length := by
  intro cats
  induction cats with
  | nil => intro d r h; simp [divRound] at h
  | cons c cs ih =>
    intro d r h
    rcases hp : pickBest c r with _ | b
    · simp only [divRound, hp] at h ⊢
      exact ih d r h
    · have hb : b ∈ r := pickBest_mem hp
      have herase : (r.erase b).length < r.length := by
        have hrpos : 0 < r.length := List.length_pos.2 (List.ne_nil_of_mem hb)
        rw [List.length_erase_of_mem hb]
        omega
      simp only [divRound, hp]
      by_cases hn : n ≤ (d ++ [b]).length
      · rw [if_pos hn]
        exact herase
      · rw [if_neg hn]
        exact Nat.lt_of_le_of_lt
          ((divRound_sub n cs (d ++ [b]) (r.erase b) true).length_le) herase

theorem divLoop_spec (n : Nat) (cats : List String) :
    ∀ (fuel : Nat) (d r : List RecItem), r.length + 1 ≤ fuel →
      d.length + r.length = n →
      (∀ x ∈ r, catOf x ∈ cats) →
      List.Perm ((divLoop n cats fuel d r).1 ++
          (divLoop n cats fuel d r).2) (d ++ r) ∧
        (divLoop n cats fuel d r).2 = [] := by
  intro fuel
  induction fuel with
  | zero => intro d r hf; omega
  | succ fuel ih =>
    intro d r hf hn hcats
    by_cases hr : r = []
    · subst hr
      simp [divLoop]
    · have hloop : divLoop n cats (fuel + 1) d r =
          (let step := divRound n cats d r false
           if step.2.2 = false then (step.1, step.2.1)
           else if n ≤ step.1.length then (step.1, step.2.1)
           else divLoop n cats fuel step.1 step.2.1) := by
        simp only [divLoop]
        rw [if_neg hr]
      rw [hloop]
      have hperm := divRound_perm n cats d r false
      by_cases hflag : (divRound n cats d r false).2.2 = false
      · exfalso
        obtain ⟨-, -, hnone⟩ := divRound_false n cats d r hflag
        obtain ⟨x, hx⟩ := List.exists_mem_of_ne_nil r hr
        exact pickBest_of_mem hx (hnone _ (hcats x hx))
      · have hflag' : (divRound n cats d r false).2.2 = true := by
          simpa using hflag
        have hlt := divRound_progress n cats d r hflag'
        by_cases hsz : n ≤ (divRound n cats d r false).1.length
        · have hlen := hperm.length_eq
          simp only [List.length_append] at hlen
          have hztail : (divRound n cats d r false).2.1.length = 0 := by omega
          have hznil : (divRound n cats d r false).2.1 = [] :=
            List.length_eq_zero.1 hztail
          simp only [hflag', hsz]
          simp only [Bool.true_eq_false, if_false, if_pos hsz]
          exact ⟨hperm, hznil⟩
        · simp only [hflag', hsz]
          simp only [Bool.true_eq_false, if_false, if_neg hsz]
          have hsub := divRound_sub n cats d r false
          have hrec := ih (divRound n cats d r false).1
            (divRound n cats d r false).2.1
            (by omega)
            (by
              have hlen := hperm.length_eq
              simp only [List.length_append] at hlen
              omega)
            (fun x hx => hcats x (hsub.mem hx))
          exact ⟨hrec.1.trans hperm, hrec.2⟩

/-- Shared fact: `_diversify_recommendations` permutes its input (it drops
nothing and enforces no per-category cap); for a non-positive diversity
factor it is the identity. -/
theorem diversify_perm (recs : List RecItem) (df : ℚ) :
    List.Perm (diversifyRecommendations recs df) recs := by
  unfold diversifyRecommendations
  by_cases h : df ≤ 0 ∨ recs = []
  · rw [if_pos h]
  · rw [if_neg h]
    have hcats : ∀ x ∈ recs, catOf x ∈ categoryKeys recs := fun x hx =>
      (mem_uniqueFirst _ _).2 (List.mem_map_of_mem _ hx)
    obtain ⟨hperm, hnil⟩ := divLoop_spec recs.length (categoryKeys recs)
      (recs.length + 1) [] recs (by omega) (by simp) hcats
    show List.Perm
      ((divLoop recs.length (categoryKeys recs) (recs.length + 1) [] recs).1
        ++ (sortDescBy (fun x => x.score)
            (divLoop recs.length (categoryKeys recs)
              (recs.length + 1) [] recs).2).take
          (recs.length -
            (divLoop recs.length (categoryKeys recs)
              (recs.length + 1) [] recs).1.length))
      recs
    rw [hnil]
    simp only [sortDescBy, List.insertionSort, List.take_nil,
      List.append_nil]
    have := hperm
    rw [hnil] at this
    simpa using this

/-- C4 counterexample: on a four-item pool with three "a"-category items and
one "b"-category item (K = 4, two distinct categories, bound
⌈4/2⌉ = 2), diversification with `diversity_factor = 1` emits all three
"a" items — the claimed per-category bound fails. -/
theorem c4_counterexample :
    ((diversifyRecommendations divPool 1).filter
        (fun r => r.category = "a")).length = 3 ∧
      divPool.length = 4 ∧
      (categoryKeys divPool).length = 2 ∧
      (divPool.length + (categoryKeys divPool).length - 1) /
          (categoryKeys divPool).length = 2 ∧
      ¬ (3 ≤ 2) := by
  refine ⟨?_, rfl, rfl, rfl, by omega⟩
  have h := (diversify_perm divPool 1).filter
    (fun r => decide (r.category = "a"))
  rw [h.length_eq]
  rfl

/-- C4 amended: for every candidate pool and every diversity factor,
`_diversify_recommendations` returns a PERMUTATION of the pool: it reorders
candidates round-robin by category but drops nothing and enforces no
per-category cap, so each category's multiplicity in the output equals its
multiplicity in the pool (and can exceed ⌈K/|distinct categories|⌉);
highest-scored items are preserved because every item is preserved. -/
theorem c4_amended (recs : List RecItem) (df : ℚ) :
    List.Perm (diversifyRecommendations recs df) recs ∧
      ∀ c : String,
        ((diversifyRecommendations recs df).filter
            (fun r => r.category = c)).length =
          (recs.filter (fun r => r.category = c)).length :=
  ⟨diversify_perm recs df, fun _ =>
    ((diversify_perm recs df).filter _).length_eq⟩

theorem combineRecommendations_spec (recs : AlgoRecs) (req : RecRequest)
    (ut : String) (excl : List String)
    (hc : ∀ it ∈ recs.collaborative, itemOK excl it)
    (hcb : ∀ it ∈ recs.content, itemOK excl it)
    (hp : ∀ it ∈ recs.popularity, itemOK excl it)
    (hl : ∀ l, recs.location = some l → ∀ it ∈ l, itemOK excl it)
    (htr : ∀ l, recs.trending = some l → ∀ it ∈ l, itemOK excl it) :
    (∀ it ∈ combineRecommendations recs req ut, itemOK excl it) ∧
      ((combineRecommendations recs req ut).map RecItem.eventId).Nodup := by
  obtain ⟨htab, hkeys⟩ := buildScoreTable_tableOK (adjustWeights ut recs)
    (adjustWeights_nonneg ut recs) recs hc hcb hp hl htr
  constructor
  · intro it hit
    simp only [combineRecommendations] at hit
    obtain ⟨m, q, hq, rfl⟩ := mem_rankedMap _ _ _ _ hit
    have hq2 : q ∈ buildScoreTable (adjustWeights ut recs) recs :=
      (mem_sortDescBy _).1 (List.mem_of_mem_take hq)
    obtain ⟨h1, h2, h3, h4, h5⟩ := htab q hq2
    refine ⟨le_min (by norm_num) h1, min_le_left 1 _, h2, h3, ?_⟩
    show q.2.firstRec.eventId ∉ excl
    rw [h4]
    exact h5
  · simp only [combineRecommendations]
    refine nodup_map_rankedMap
      (fun rank q =>
        ({ eventId := q.2.firstRec.eventId,
           score := min 1 q.2.total,
           algorithm := "hybrid",
           confidence := q.2.confidence,
           rank := rank,
           reasons := q.2.reasons.take 3,
           title := q.2.firstRec.title,
           category := q.2.firstRec.category,
           tags := q.2.firstRec.tags } : RecItem))
      RecItem.eventId
      (fun q : String × ScoreData => q.2.firstRec.eventId)
      (fun _ _ => rfl) _ _ ?_
    have hcongr : ((sortDescBy (fun q => q.2.total)
          (buildScoreTable (adjustWeights ut recs) recs)).take
        (req.count * 2)).map
          (fun q : String × ScoreData => q.2.firstRec.eventId) =
        ((sortDescBy (fun q => q.2.total)
          (buildScoreTable (adjustWeights ut recs) recs)).take
        (req.count * 2)).map Prod.fst := by
      apply List.map_congr_left
      intro q hq
      exact (htab q ((mem_sortDescBy _).1 (List.mem_of_mem_take hq))).2.2.2.1
    rw [hcongr]
    have hsorted : ((sortDescBy (fun q => q.2.total)
        (buildScoreTable (adjustWeights ut recs) recs)).map Prod.fst).Nodup :=
      (List.Perm.nodup_iff ((sortDescBy_perm _ _).map _)).2 hkeys
    exact List.Nodup.sublist
      (List.Sublist.map _ (List.take_sublist _ _)) hsorted

theorem mem_setRanks (n : Nat) (l : List RecItem) (y : RecItem)
    (hy : y ∈ setRanks n l) :
    ∃ m x, x ∈ l ∧ y = { x with rank := m } := by
  unfold setRanks at hy
  obtain ⟨m, x, hx, rfl⟩ := mem_rankedMap _ _ _ _ hy
  exact ⟨m, x, hx, rfl⟩

theorem setRanks_map_eventId (n : Nat) (l : List RecItem) :
    (setRanks n l).map RecItem.eventId = l.map RecItem.eventId := by
  unfold setRanks
  exact map_rankedMap (fun i r => { r with rank := i }) RecItem.eventId
    RecItem.eventId (fun _ _ => rfl) n l

theorem setRanks_map_rank : ∀ (n : Nat) (l : List RecItem),
    (setRanks n l).map RecItem.rank = List.range' n l.length := by
  intro n l
  induction l generalizing n with
  | nil => rfl
  | cons x xs ih =>
    show ({ x with rank := n } : RecItem).rank ::
        (setRanks (n + 1) xs).map RecItem.rank = _
    rw [ih]
    rfl

theorem setRanks_length (n : Nat) (l : List RecItem) :
    (setRanks n l).length = l.length := by
  unfold setRanks
  exact length_rankedMap _ _ _

theorem takeRanks_spec (P : RecItem → Prop)
    (hPrank : ∀ (it : RecItem) (i : Nat), P it → P { it with rank := i })
    (l : List RecItem) (count : Nat)
    (hP : ∀ it ∈ l, P it) (hnd : (l.map RecItem.eventId).Nodup) :
    (setRanks 1 (l.take count)).length ≤ count ∧
      ((setRanks 1 (l.take count)).map RecItem.eventId).Nodup ∧
      (∀ it ∈ setRanks 1 (l.take count), P it) ∧
      (setRanks 1 (l.take count)).map RecItem.rank =
        List.range' 1 (setRanks 1 (l.take count)).length := by
  refine ⟨?_, ?_, ?_, ?_⟩
  · rw [setRanks_length, List.length_take]
    omega
  · rw [setRanks_map_eventId]
    exact List.Nodup.sublist (List.Sublist.map _ (List.take_sublist _ _)) hnd
  · intro it hit
    obtain ⟨m, x, hx, rfl⟩ := mem_setRanks _ _ _ hit
    exact hPrank x m (hP x (List.mem_of_mem_take hx))
  · rw [setRanks_map_rank, setRanks_length]

theorem addExplorationItems_sub (l : List RecItem) (req : RecRequest) :
    (∀ it ∈ addExplorationItems l req, it ∈ l) ∧
      ((l.map RecItem.eventId).Nodup →
        ((addExplorationItems l req).map RecItem.eventId).Nodup) := by
  unfold addExplorationItems
  by_cases hk : 0 < explorationCount l.length
  · rw [if_pos hk]
    have hei : explorationItems l req = [] := by
      simp [explorationItems, explorationPool, getPopularityRecommendations]
    rw [hei, List.append_nil]
    constructor
    · intro it hit
      exact List.mem_of_mem_take ((mem_sortDescBy _).1 hit)
    · intro h
      rw [List.Perm.nodup_iff ((sortDescBy_perm _ _).map _)]
      exact List.Nodup.sublist (List.Sublist.map _ (List.take_sublist _ _)) h
  · rw [if_neg hk]
    exact ⟨fun it hit => hit, id⟩

theorem applyDAE_spec (P : RecItem → Prop)
    (hPrank : ∀ (it : RecItem) (i : Nat), P it → P { it with rank := i })
    (recs : List RecItem) (req : RecRequest)
    (hP : ∀ it ∈ recs, P it)
    (hnd : (recs.map RecItem.eventId).Nodup) :
    (applyDiversityAndExploration recs req).length ≤ req.count ∧
      ((applyDiversityAndExploration recs req).map RecItem.eventId).Nodup ∧
      (∀ it ∈ applyDiversityAndExploration recs req, P it) ∧
      (applyDiversityAndExploration recs req).map RecItem.rank =
        List.range' 1 (applyDiversityAndExploration recs req).length := by
  simp only [applyDiversityAndExploration]
  by_cases hr : recs = []
  · rw [if_pos hr]
    subst hr
    exact ⟨Nat.zero_le _, by simp, by simp, by simp⟩
  · rw [if_neg hr]
    have hEF : 0 < EXPLORATION_FACTOR := by norm_num [EXPLORATION_FACTOR]
    rw [if_pos hEF]
    by_cases hdf : 0 < divFactorOf req
    · rw [if_pos hdf]
      have hdmem : ∀ it ∈ diversifyRecommendations recs (divFactorOf req),
          it ∈ recs := fun it hit => (diversify_perm recs _).mem_iff.1 hit
      have hdnd : ((diversifyRecommendations recs
          (divFactorOf req)).map RecItem.eventId).Nodup :=
        (List.Perm.nodup_iff ((diversify_perm recs _).map _)).2 hnd
      obtain ⟨hsub, hsnd⟩ := addExplorationItems_sub
        (diversifyRecommendations recs (divFactorOf req)) req
      exact takeRanks_spec P hPrank _ req.count
        (fun it hit => hP it (hdmem it (hsub it hit))) (hsnd hdnd)
    · rw [if_neg hdf]
      obtain ⟨hsub, hsnd⟩ := addExplorationItems_sub recs req
      exact takeRanks_spec P hPrank _ req.count
        (fun it hit => hP it (hsub it hit)) (hsnd hnd)


/-- C3 counterexample: training on five identical `like` interactions of the
pair (u0, e0) yields matrix cell `R[0,0] = 20.0` (scipy sums duplicate
coordinates), while "latest value wins" would give 4.0. -/
theorem c3_counterexample :
    (cfTrainMatrix fiveLikes).map (fun r => csrEntry r.entries 0 0) =
        some 20 ∧
      (fiveLikes.map interactionToRating).getLast? = some 4 ∧ (20:ℚ) ≠ 4 := by
  refine ⟨?_, ?_, by norm_num⟩
  · simp [cfTrainMatrix, fiveLikes, MIN_INTERACTIONS_FOR_CF, uniqueFirst,
      uniqueFirstAux, csrEntry, List.replicate, interactionToRating, min_def,
      List.indexOf_cons_self]
    norm_num
  · simp [fiveLikes, List.replicate, interactionToRating, min_def]
    norm_num

/-- Helper: summing a COO cell of entries generated rowwise from a list
equals the sum of ratings over the rows whose generated coordinates hit the
cell. -/
theorem csrEntry_map_rows (g h : UserInteraction → Nat)
    (u e : Nat) (P : UserInteraction → Bool)
    (l : List UserInteraction)
    (hpt : ∀ i ∈ l, (decide (g i = u ∧ h i = e)) = P i) :
    csrEntry (l.map (fun i => (g i, h i, interactionToRating i))) u e =
      ((l.filter P).map interactionToRating).sum := by
  induction l with
  | nil => simp [csrEntry]
  | cons x xs ih =>
    have hx := hpt x (List.mem_cons_self x xs)
    have hxs : ∀ i ∈ xs, (decide (g i = u ∧ h i = e)) = P i :=
      fun i hi => hpt i (List.mem_cons_of_mem x hi)
    have ih' := ih hxs
    simp only [csrEntry] at ih' ⊢
    simp only [List.map_cons, List.filter_cons]
    by_cases hcase : g x = u ∧ h x = e
    · have hPx : P x = true := by rw [← hx]; exact decide_eq_true hcase
      rw [if_pos (by simp [hcase]), if_pos hPx]
      simp only [List.map_cons, List.sum_cons]
      rw [ih']
    · have hPx : P x = false := by rw [← hx]; exact decide_eq_false hcase
      rw [if_neg (by simp [hcase]), if_neg (by simp [hPx])]
      exact ih'

/-- C3 amended: in the sparse rating matrix built by CF training, the cell for
a (user, event) pair holds the SUM of the derived ratings of all interactions
of that pair — duplicates accumulate rather than being overwritten by the
latest value. -/
theorem c3_amended (interactions : List UserInteraction) (res : CFTrainResult)
    (h : cfTrainMatrix interactions = some res) (U E : String)
    (hU : U ∈ interactions.map (·.userId))
    (hE : E ∈ interactions.map (·.eventId)) :
    csrEntry res.entries (res.users.indexOf U) (res.events.indexOf E) =
      ((interactions.filter
          (fun i => i.userId = U ∧ i.eventId = E)).map interactionToRating).sum := by
  simp only [cfTrainMatrix] at h
  split at h
  · exact absurd h (by simp)
  · rw [Option.some.injEq] at h
    subst h
    apply csrEntry_map_rows
    intro i hi
    have hiu : i.userId ∈ uniqueFirst (interactions.map (·.userId)) :=
      (mem_uniqueFirst _ _).2 (List.mem_map_of_mem _ hi)
    have hie : i.eventId ∈ uniqueFirst (interactions.map (·.eventId)) :=
      (mem_uniqueFirst _ _).2 (List.mem_map_of_mem _ hi)
    have hu : U ∈ uniqueFirst (interactions.map (·.userId)) :=
      (mem_uniqueFirst _ _).2 hU
    have he : E ∈ uniqueFirst (interactions.map (·.eventId)) :=
      (mem_uniqueFirst _ _).2 hE
    simp only [decide_eq_decide]
    rw [List.indexOf_inj hiu hu, List.indexOf_inj hie he]

/-- C3 amended witness at a concrete input: five `like` interactions on the
same pair sum to 20. -/
theorem c3_amended_witness :
    csrEntry ((cfTrainMatrix fiveLikes).getD ⟨[], [], []⟩).entries
        (((cfTrainMatrix fiveLikes).getD ⟨[], [], []⟩).users.indexOf "u0")
        (((cfTrainMatrix fiveLikes).getD ⟨[], [], []⟩).events.indexOf "e0") =
      ((fiveLikes.filter
          (fun i => i.userId = "u0" ∧ i.eventId = "e0")).map
        interactionToRating).sum := by
  have h : cfTrainMatrix fiveLikes =
      some ((cfTrainMatrix fiveLikes).getD ⟨[], [], []⟩) := by
    simp [cfTrainMatrix, fiveLikes, MIN_INTERACTIONS_FOR_CF]
  exact c3_amended fiveLikes _ h "u0" "e0"
    (by simp [fiveLikes, List.replicate])
    (by simp [fiveLikes, List.replicate])

/-- C5: the claim demands write-then-rename persistence and an integer schema
version, but both `_save_model` implementations pickle directly to the final
path (no temporary file, no rename anywhere in the trace) and store the
version as the string "1.0.0". -/
theorem c5_code_bug :
    ¬ atomicSaveTrace cfSaveOps cfModelPath ∧
      ¬ atomicSaveTrace cbSaveOps cbModelPath ∧
      (∀ op ∈ cfSaveOps, ∀ s d, op ≠ FsOp.renameFile s d) ∧
      (∀ op ∈ cbSaveOps, ∀ s d, op ≠ FsOp.renameFile s d) ∧
      cfModelData.lookup "model_version" = some (.strV "1.0.0") ∧
      cbModelData.lookup "model_version" = some (.strV "1.0.0") ∧
      ¬ intSchemaVersion cfModelData ∧ ¬ intSchemaVersion cbModelData := by
  refine ⟨?_, ?_, ?_, ?_, by simp [cfModelData, List.lookup],
      by simp [cbModelData, List.lookup], ?_, ?_⟩
  · rintro ⟨⟨tmp, hmem⟩, -⟩
    simp [cfSaveOps] at hmem
  · rintro ⟨⟨tmp, hmem⟩, -⟩
    simp [cbSaveOps] at hmem
  · intro op hop s d
    simp only [cfSaveOps, List.mem_cons, List.mem_singleton] at hop
    rcases hop with rfl | rfl | h
    · simp
    · simp
    · simp at h
  · intro op hop s d
    simp only [cbSaveOps, List.mem_cons, List.mem_singleton] at hop
    rcases hop with rfl | rfl | h
    · simp
    · simp
    · simp at h
  · rintro ⟨n, hn⟩
    simp [cfModelData, List.lookup] at hn
  · rintro ⟨n, hn⟩
    simp [cbModelData, List.lookup] at hn

/-- C7 counterexample: for a profile whose only filled axis is the text-blob
list, the code yields confidence 0.7 (base 0.5 + 0.2 for text), while the
claim's uniform "+0.1 per axis" rule yields 0.6. -/
theorem c7_counterexample :
    calculateConfidence textOnlyProfile = 7/10 ∧
      confidenceSpecClaimed textOnlyProfile = 3/5 ∧
      calculateConfidence textOnlyProfile ≠
        confidenceSpecClaimed textOnlyProfile := by
  refine ⟨?_, ?_, ?_⟩ <;>
    · simp [calculateConfidence, confidenceSpecClaimed, textOnlyProfile,
        min_def]
      norm_num

/-- C7 amended: the content-based confidence equals 0.5 plus 0.1 for each
non-empty axis among preferred categories, preferred tags and preferred
locations, plus 0.2 for a non-empty text-blob list, capped at 0.95 (the cap
binds exactly when all four axes are filled). -/
theorem c7_amended : ∀ p : UserProfile,
    calculateConfidence p = confidenceSpecAmended p := by
  intro p
  simp only [calculateConfidence, confidenceSpecAmended]
  by_cases h1 : p.preferredCategories = [] <;>
    by_cases h2 : p.preferredTags = [] <;>
    by_cases h3 : p.textPreferences = [] <;>
    by_cases h4 : p.preferredLocations = [] <;>
    simp [h1, h2, h3, h4]

/-- C8 counterexample: with exactly 10 baseline samples of value 1, a current
window value of 100 and the default multiplier 2, the claim's "at least 10
samples" rule flags an anomaly, but the code (which requires strictly more
than 10 samples) does not. -/
theorem c8_counterexample :
    detectAnomaly 1 100 (List.replicate 10 1) initThresholdMultiplier =
        false ∧
      (List.replicate 10 (1:ℚ)).length = 10 ∧
      anomalyMean (List.replicate 10 (1:ℚ)) * initThresholdMultiplier <
        100 := by
  refine ⟨?_, by simp, ?_⟩
  · simp [detectAnomaly]
  · simp [anomalyMean, initThresholdMultiplier, List.sum_replicate]
    norm_num

/-- C8 amended: an `anomaly_detected` alert fires for a metric iff the metric
window has recorded data in the current period, STRICTLY more than 10
baseline samples exist, and the current value exceeds
`threshold_multiplier * mean(baseline)`; the initial multiplier is 2.0.
With at most 10 baseline samples (in particular with fewer than 10) no
anomaly is flagged. -/
theorem c8_amended :
    (∀ (wc : Nat) (v : ℚ) (b : List ℚ) (m : ℚ),
        detectAnomaly wc v b m = true ↔
          0 < wc ∧ 10 < b.length ∧ anomalyMean b * m < v) ∧
      initThresholdMultiplier = 2 := by
  refine ⟨fun wc v b m => ?_, rfl⟩
  simp only [detectAnomaly]
  by_cases h1 : 0 < wc
  · by_cases h2 : 10 < b.length
    · simp [h1, h2]
    · simp [h1, h2]
  · simp [h1]

end EventsApp

namespace EventsApp

/-- C6 counterexample: at a view of exactly 300 seconds the code awards only
the +0.5 bonus (rating 2.5), while the claim's `≥ 300` rule demands +1.0
(rating 3.0); the claim as stated is false on the code. -/
theorem c6_counterexample :
    interactionToRating viewAt300 = 5/2 ∧ ratingSpecClaimed viewAt300 = 3 ∧
      interactionToRating viewAt300 ≠ ratingSpecClaimed viewAt300 := by
  refine ⟨?_, ?_, ?_⟩ <;>
    · simp [interactionToRating, ratingSpecClaimed, viewAt300, min_def]
      norm_num

/-- C6 amended: the derived rating follows the claimed table with the duration
thresholds read strictly (bonus +1.0 only when duration > 300 s, +0.5 only
when duration > 60 s); explicit ratings are used as-is and the derived value
is capped at 5.0. -/
theorem c6_amended : ∀ i : UserInteraction,
    interactionToRating i = ratingSpecAmended i := by
  intro i
  rcases i with ⟨u, e, t, r, d⟩
  rcases r with _ | r
  · have hbase :
        (if t = "register" then (5:ℚ)
         else if t = "like" then 4
         else if t = "save" then 4
         else if t = "share" then 4
         else if t = "click" then 3
         else if t = "view" then 2
         else if t = "comment" then 7/2
         else 2) =
        (if t = "register" then (5:ℚ)
         else if t = "like" ∨ t = "save" ∨ t = "share" then 4
         else if t = "comment" then 7/2
         else if t = "click" then 3
         else if t = "view" then 2
         else 2) := by
      by_cases h1 : t = "register" <;> by_cases h2 : t = "like" <;>
        by_cases h3 : t = "save" <;> by_cases h4 : t = "share" <;>
        by_cases h5 : t = "click" <;> by_cases h6 : t = "view" <;>
        by_cases h7 : t = "comment" <;> simp_all
    simp only [interactionToRating, ratingSpecAmended, hbase]
    by_cases h6 : t = "view"
    · subst h6
      rcases d with _ | d
      · norm_num
      · by_cases hd0 : d = 0
        · subst hd0; norm_num
        · by_cases hd3 : 300 < d
          · simp [hd0, hd3]
          · by_cases hd6 : 60 < d
            · simp [hd0, hd3, hd6]
            · simp [hd0, hd3, hd6]
    · rcases d with _ | d <;> simp [h6]
  · simp [interactionToRating, ratingSpecAmended]

/-- C1: for every CF/CB state pair (with distinct CF event ids and a
nonnegative CF interaction matrix, as the trainer guarantees), every
request, preference record and interaction history, the hybrid response
satisfies the response contract: at most `request.count` recommendations,
no event id repeated, no recommended event in `request.exclude_events`,
every score and confidence in `[0, 1]`, and ranks exactly `1, 2, ...` in
list order. -/
theorem c1_response_invariants (cf : CFState) (cb : CBState)
    (req : RecRequest) (prefs : Option UserPreferences)
    (interactions : List UserInteraction)
    (hnd : cf.events.Nodup)
    (hnn : ∀ entries, cf.interactionMatrix = some entries →
      ∀ t ∈ entries, 0 ≤ t.2.2) :
    (hybridGetRecommendations cf cb req prefs
        interactions).recommendations.length ≤ req.count ∧
      ((hybridGetRecommendations cf cb req prefs
          interactions).recommendations.map RecItem.eventId).Nodup ∧
      (∀ it ∈ (hybridGetRecommendations cf cb req prefs
          interactions).recommendations,
        0 ≤ it.score ∧ it.score ≤ 1 ∧ 0 ≤ it.confidence ∧
          it.confidence ≤ 1 ∧ it.eventId ∉ req.excludeEvents) ∧
      (hybridGetRecommendations cf cb req prefs
          interactions).recommendations.map RecItem.rank =
        List.range' 1 (hybridGetRecommendations cf cb req prefs
          interactions).recommendations.length := by
  have hrec : (hybridGetRecommendations cf cb req prefs
      interactions).recommendations =
      applyDiversityAndExploration
        (combineRecommendations
          (getMultiAlgorithmRecommendations cf cb req prefs interactions
            (determineUserType interactions))
          req (determineUserType interactions)) req := rfl
  set ut := determineUserType interactions with hut
  set recsMap := getMultiAlgorithmRecommendations cf cb req prefs
    interactions ut with hmap
  have hcC : ∀ it ∈ recsMap.collaborative, itemOK req.excludeEvents it := by
    rw [hmap]
    show ∀ it ∈ (if ut ≠ "cold_start" ∧ cf.isTrained then
        cfGetRecommendations cf req.userId (min (req.count * 2) 50)
          req.excludeEvents
      else []), itemOK req.excludeEvents it
    split
    · exact cfGetRecommendations_itemOK cf req.userId _ req.excludeEvents
        hnd hnn
    · intro it hit
      simp at hit
  have hcB : ∀ it ∈ recsMap.content, itemOK req.excludeEvents it := by
    rw [hmap]
    show ∀ it ∈ (if cb.isTrained then
        cbGetRecommendations cb req.userId prefs interactions
          (min (req.count * 2) 50) req.excludeEvents
      else []), itemOK req.excludeEvents it
    split
    · exact cbGetRecommendations_itemOK cb req.userId prefs interactions _
        req.excludeEvents
    · intro it hit
      simp at hit
  have hcP : ∀ it ∈ recsMap.popularity, itemOK req.excludeEvents it := by
    rw [hmap]
    intro it hit
    simp [getMultiAlgorithmRecommendations,
      getPopularityRecommendations] at hit
  have hcL : ∀ l, recsMap.location = some l →
      ∀ it ∈ l, itemOK req.excludeEvents it := by
    rw [hmap]
    intro l hl
    have : (if req.location.isSome ∧ ENABLE_LOCATION_BASED then
        some (getLocationBasedRecommendations req (min req.count 15))
      else none) = some l := hl
    split at this
    · cases this
      intro it hit
      simp [getLocationBasedRecommendations] at hit
    · cases this
  have hcT : ∀ l, recsMap.trending = some l →
      ∀ it ∈ l, itemOK req.excludeEvents it := by
    rw [hmap]
    intro l hl
    have : (if ENABLE_TRENDING_BOOST then
        some (getTrendingRecommendations req (min (req.count / 2) 10))
      else none) = some l := hl
    split at this
    · cases this
      intro it hit
      simp [getTrendingRecommendations] at hit
    · cases this
  obtain ⟨hcomb, hcombnd⟩ :=
    combineRecommendations_spec recsMap req ut req.excludeEvents
      hcC hcB hcP hcL hcT
  obtain ⟨hlen, hnodup, hok, hranks⟩ :=
    applyDAE_spec (itemOK req.excludeEvents)
      (fun it i h => h)
      (combineRecommendations recsMap req ut) req hcomb hcombnd
  rw [hrec]
  exact ⟨hlen, hnodup, fun it hit => hok it hit, hranks⟩

/-- Witness for C1 at a concrete trained state and request. -/
theorem c1_witness :
    trainedCF.events.Nodup ∧
      (∀ entries, trainedCF.interactionMatrix = some entries →
        ∀ t ∈ entries, 0 ≤ t.2.2) ∧
      ((hybridGetRecommendations trainedCF trainedCB sampleReq none
          []).recommendations.length ≤ sampleReq.count ∧
        ((hybridGetRecommendations trainedCF trainedCB sampleReq none
            []).recommendations.map RecItem.eventId).Nodup ∧
        (∀ it ∈ (hybridGetRecommendations trainedCF trainedCB sampleReq none
            []).recommendations,
          0 ≤ it.score ∧ it.score ≤ 1 ∧ 0 ≤ it.confidence ∧
            it.confidence ≤ 1 ∧ it.eventId ∉ sampleReq.excludeEvents) ∧
        (hybridGetRecommendations trainedCF trainedCB sampleReq none
            []).recommendations.map RecItem.rank =
          List.range' 1 (hybridGetRecommendations trainedCF trainedCB
            sampleReq none []).recommendations.length) := by
  have hnd : trainedCF.events.Nodup := by decide
  have hnn : ∀ entries, trainedCF.interactionMatrix = some entries →
      ∀ t ∈ entries, 0 ≤ t.2.2 := by
    intro entries h
    cases h
    intro t ht
    fin_cases ht <;> norm_num
  exact ⟨hnd, hnn,
    c1_response_invariants trainedCF trainedCB sampleReq none [] hnd hnn⟩

end EventsApp
